import Mathlib

/-!
# Checkpoint / recovery core of the Midgard time-series package

Shallow embedding of `src/timeseries.go` (`CommitBlock`, `Setup`, `LastBlock`,
`AssetAndRuneDepths`, the read queries `GetTotalRuneStakes` .. `GetGas`) and of
the start-up part of `src/script.go` (`Duration.WithDefault`,
`SetupBlockchain`, `api.InSync`, the follower loop).

Conventions
* `int64` values are integers; where the source computes on them the result is
  wrapped with `wrap64`.
* A `[]byte` is a list of bytes, the nil slice being the empty list.
* A `map[string]int64` is an association list with distinct keys; the order of
  the entries stands for the (unspecified) iteration order.
* Package-level variables (`lastBlockTrack`, `recorder`, the `block_log` table
  behind `DBExec`/`DBQuery`, the process log) are the fields of `State`.
-/

namespace Midgard

/-! ## Machine integers, slices, time -/

/-- Two's complement reinterpretation of an integer as an `int64`. -/
def wrap64 (x : Int) : Int := (x + 2 ^ 63) % 2 ^ 64 - 2 ^ 63

/-- Smallest `int64`, also `time.Duration`'s `minDuration`. -/
def minInt64 : Int := -(2 ^ 63)

/-- Largest `int64`, also `time.Duration`'s `maxDuration`. -/
def maxInt64 : Int := 2 ^ 63 - 1

/-- Membership in the `int64` range. -/
def IsInt64 (x : Int) : Prop := minInt64 ≤ x ∧ x ≤ maxInt64

instance (x : Int) : Decidable (IsInt64 x) := by
  unfold IsInt64; exact inferInstance

abbrev Bytes := List UInt8

/-- Go's `make([]byte, n)`: `n` zero bytes. -/
def make (n : Nat) : Bytes := List.replicate n 0

/-- Go's `copy(dst, src)`: the first `min (len dst) (len src)` elements of `dst`
are overwritten by those of `src`; the value is the new content of `dst`. -/
def copy (dst src : Bytes) : Bytes := src.take dst.length ++ dst.drop src.length

/-- A `time.Time` seen as an instant: nanoseconds since the Unix epoch. The
range of `time.Time` (hundreds of billions of years) is far wider than what an
`int64` count of nanoseconds holds, hence an unbounded integer. -/
abbrev Time := Int

/-- The zero value `time.Time{}`: January 1, year 1, 00:00:00 UTC. -/
def zeroTime : Time := -62135596800 * 1000000000

/-- The method `Time.UnixNano`: the nanoseconds since the epoch computed in
`int64`, so it wraps for instants outside of the years 1678..2262. -/
def UnixNano (t : Time) : Int := wrap64 t

/-- The function `time.Unix(sec, nsec)`. -/
def Unix (sec nsec : Int) : Time := sec * 1000000000 + nsec

/-- The constant `time.Second`; a `time.Duration` is an `int64` count of
nanoseconds. -/
def Second : Int := 1000000000

/-! ## Data model (`src/timeseries.go`) -/

/-- A `map[string]int64`. -/
abbrev DepthMap := List (String × Int)

/-- Go's `m[k] = v`. -/
def mapSet (m : DepthMap) (k : String) (v : Int) : DepthMap :=
  if k ∈ m.map Prod.fst then m.map (fun e => if e.1 = k then (k, v) else e) else m ++ [(k, v)]

/-- Two maps hold the same mapping. -/
def SameMapping (m n : DepthMap) : Prop := ∀ k, m.lookup k = n.lookup k

/-- The struct `aggTrack`: a snapshot of the running totals. -/
structure aggTrack where
  AssetE8DepthPerPool : DepthMap
  RuneE8DepthPerPool : DepthMap
deriving DecidableEq, Repr

/-- The struct `blockTrack`, which embeds `aggTrack`. -/
structure blockTrack extends aggTrack where
  Height : Int
  Timestamp : Time
  BlockTimestamp : Int
  Hash : Bytes
deriving DecidableEq, Repr

/-- The zero value of `blockTrack` (`var track blockTrack`). -/
def blockTrack.zero : blockTrack :=
  { AssetE8DepthPerPool := [], RuneE8DepthPerPool := [],
    Height := 0, Timestamp := zeroTime, BlockTimestamp := 0, Hash := [] }

/-- Modelled from the spec: the running totals of the package variable
`recorder`, whose type is declared in another file of the package. `Setup`
writes `recorder.assetE8DepthPerPool[pool]` and `recorder.runeE8DepthPerPool[pool]`;
the pointer targets are held by value. -/
structure runningTotals where
  assetE8DepthPerPool : DepthMap
  runeE8DepthPerPool : DepthMap
deriving DecidableEq, Repr

/-- Modelled from the spec: `CurrentSnapshot`, a deep, independent copy of the
asset depths (`recorder.AssetE8DepthPerPool()`). -/
def runningTotals.AssetE8DepthPerPool (t : runningTotals) : DepthMap :=
  t.assetE8DepthPerPool.map (fun e => (e.1, e.2))

/-- Modelled from the spec: `CurrentSnapshot`, a deep, independent copy of the
rune depths (`recorder.RuneE8DepthPerPool()`). -/
def runningTotals.RuneE8DepthPerPool (t : runningTotals) : DepthMap :=
  t.runeE8DepthPerPool.map (fun e => (e.1, e.2))

/-- Modelled from the spec: the package variable `recorder`: the running totals
and the deferred queues `linkedEvents`, whose content `Q` is left open. -/
structure eventRecorder (Q : Type) where
  runningTotals : runningTotals
  linkedEvents : Q

/-- What `CommitBlock` and `Setup` call and `timeseries.go` does not define:
the gob codec of `aggTrack` and the two deferred queue drains.

* `gobEncode a` is what `gob.NewEncoder(&buf).Encode(&a)` leaves in the buffer,
  and whether it returned an error;
* `gobDecode b a` is `gob.NewDecoder(bytes.NewReader(b)).Decode(&a)`: the new
  content of `a`, or nothing when it returned an error;
* `ApplyOutboundQ q t height timestamp` and `ApplyFeeQ` are the methods of
  `recorder.linkedEvents` applied to `&recorder.runningTotals`. -/
structure Collaborators (Q : Type) where
  gobEncode : aggTrack → Bytes × Bool
  gobDecode : Bytes → aggTrack → Option aggTrack
  ApplyOutboundQ : Q → runningTotals → Int → Time → Q × runningTotals
  ApplyFeeQ : Q → runningTotals → Int → Time → Q × runningTotals

/-! ## The table `block_log` -/

/-- A row of `block_log (height, timestamp, hash, agg_state)`. -/
structure Row where
  height : Int
  timestamp : Int
  hash : Bytes
  agg_state : Bytes
deriving DecidableEq, Repr

/-- The heights of a table are pairwise distinct (`height` is its key). -/
def Keyed (tbl : List Row) : Prop := (tbl.map Row.height).Nodup

instance (tbl : List Row) : Decidable (Keyed tbl) := by
  unfold Keyed; exact inferInstance

/-- The rows of a table stored under a height. -/
def rowsAt (tbl : List Row) (h : Int) : List Row := tbl.filter (fun r => r.height = h)

/-- What may go wrong in `DBExec`: nothing, the statement itself, or
`result.RowsAffected()` once the statement has run. -/
inductive ExecFault where
  | ok
  | execFails
  | rowsAffectedFails
deriving DecidableEq, Repr

/-- The value of `DBExec`: an error, or a result whose `RowsAffected()` is a
count or an error. -/
inductive ExecResult where
  | error
  | result (rowsAffected : Option Nat)
deriving DecidableEq, Repr

/-- Modelled from the spec: the declaration of the table is not part of the Go
sources;
`block_log` is keyed by height and
`INSERT INTO block_log ... ON CONFLICT DO NOTHING` inserts the row unless its
height is taken, in which case nothing is written and no row is affected. -/
def insertOrIgnore (tbl : List Row) (r : Row) : List Row × Nat :=
  if r.height ∈ tbl.map Row.height then (tbl, 0) else (tbl ++ [r], 1)

/-- The call `DBExec(q, height, timestamp.UnixNano(), hash, aggSerial.Bytes())`
of `CommitBlock` on a table. A failing statement writes nothing. -/
def DBExec (fault : ExecFault) (tbl : List Row) (r : Row) : ExecResult × List Row :=
  match fault with
  | .execFails => (.error, tbl)
  | .rowsAffectedFails => (.result none, (insertOrIgnore tbl r).1)
  | .ok => (.result (some (insertOrIgnore tbl r).2), (insertOrIgnore tbl r).1)

/-- One step of the scan for the row of greatest height. -/
def keepHigher (best : Option Row) (r : Row) : Option Row :=
  match best with
  | none => some r
  | some b => if b.height < r.height then some r else some b

/-- The row of greatest height: `ORDER BY height DESC LIMIT 1`. -/
def latest (tbl : List Row) : Option Row := tbl.foldl keepHigher none

/-- What `Setup` sees of its query: `DBQuery` returned an error, or a row set
whose first `rows.Next()` delivers `next` and whose `rows.Err()` is set or not. -/
inductive QueryResult where
  | error
  | rows (next : Option Row) (rowsErr : Bool)
deriving DecidableEq, Repr

/-- What may go wrong in `DBQuery`: nothing, the query itself, or the row
iteration (before or after the row has been delivered). -/
inductive QueryFault where
  | ok
  | queryFails
  | rowsFail (delivered : Bool)
deriving DecidableEq, Repr

/-- The query of `Setup` on a table. -/
def DBQuery (fault : QueryFault) (tbl : List Row) : QueryResult :=
  match fault with
  | .queryFails => .error
  | .rowsFail delivered => .rows (if delivered then latest tbl else none) true
  | .ok => .rows (latest tbl) false

/-! ## Errors, log, package state -/

/-- The errors `Setup` and `CommitBlock` build. -/
inductive Error where
  | lastBlockLookup
  | malformedAggregationState
  | persistBlockHeight (height : Int)
  | persistBlockHeightResult (height : Int)
  | rowsErr
deriving DecidableEq, Repr

/-- The error values of `client.Follow` as the `switch` of the follower loop
tells them apart: `chain.ErrNoData`, or any other error. -/
inductive FollowError where
  | ErrNoData
  | other
deriving DecidableEq, Repr

/-- The lines written with `log.Print`; the follower prints the error of
`client.Follow`, which may be nil. -/
inductive LogEntry where
  | aggregationStateOmitted
  | alreadyCommitted (height : Int)
  | startingWithPrevious (offset : Int)
  | followBlockchainRetry (err : Option FollowError)
deriving DecidableEq, Repr

/-- The package-level state: the table behind `DBExec`/`DBQuery`, the rows
handed to `DBExec` so far (one entry per call), `recorder`, `lastBlockTrack`
(an `atomic.Value`, empty until the first `Store`) and the process log. -/
structure State (Q : Type) where
  block_log : List Row
  execCalls : List Row
  recorder : eventRecorder Q
  lastBlockTrack : Option blockTrack
  log : List LogEntry

/-! ## `CommitBlock`, `LastBlock`, `AssetAndRuneDepths` -/

/-- The in-memory snapshot `track` built on entry to `CommitBlock`. -/
def CommitBlock.track {Q : Type} (s : State Q) (height : Int) (timestamp : Time)
    (hash : Bytes) : blockTrack :=
  { Height := height
    Timestamp := timestamp
    BlockTimestamp := 0
    Hash := copy (make hash.length) hash
    AssetE8DepthPerPool := s.recorder.runningTotals.AssetE8DepthPerPool
    RuneE8DepthPerPool := s.recorder.runningTotals.RuneE8DepthPerPool }

/-- The row `CommitBlock` hands to `DBExec`. -/
def CommitBlock.row {Q : Type} (c : Collaborators Q) (s : State Q) (height : Int)
    (timestamp : Time) (hash : Bytes) : Row :=
  { height := height
    timestamp := UnixNano timestamp
    hash := hash
    agg_state := (c.gobEncode (CommitBlock.track s height timestamp hash).toaggTrack).1 }

/-- `CommitBlock(height, timestamp, hash)`: the returned error and the state
it leaves. -/
def CommitBlock {Q : Type} (c : Collaborators Q) (fault : ExecFault) (s : State Q)
    (height : Int) (timestamp : Time) (hash : Bytes) : Option Error × State Q :=
  -- in-memory snapshot
  let track := CommitBlock.track s height timestamp hash
  -- persist to database
  let enc := c.gobEncode track.toaggTrack
  let log1 := if enc.2 then s.log ++ [LogEntry.aggregationStateOmitted] else s.log
  let row := CommitBlock.row c s height timestamp hash
  let db := DBExec fault s.block_log row
  let s1 : State Q :=
    { s with block_log := db.2, execCalls := s.execCalls ++ [row], log := log1 }
  match db.1 with
  | .error => (some (Error.persistBlockHeight height), s1)
  | .result none => (some (Error.persistBlockHeightResult height), s1)
  | .result (some n) =>
    let log2 := if n = 0 then s1.log ++ [LogEntry.alreadyCommitted height] else s1.log
    -- calculate & reset
    let o := c.ApplyOutboundQ s1.recorder.linkedEvents s1.recorder.runningTotals height timestamp
    let f := c.ApplyFeeQ o.1 o.2 height timestamp
    -- commit in-memory state
    (none, { s1 with
              recorder := { runningTotals := f.2, linkedEvents := f.1 }
              lastBlockTrack := some track
              log := log2 })

/-- `LastBlock()`; nothing when `lastBlockTrack` was never stored (the type
assertion panics). -/
def LastBlock {Q : Type} (s : State Q) : Option (Int × Time × Bytes) :=
  s.lastBlockTrack.map (fun track => (track.Height, track.Timestamp, track.Hash))

/-- `AssetAndRuneDepths()`; nothing when `lastBlockTrack` was never stored. -/
def AssetAndRuneDepths {Q : Type} (s : State Q) : Option (DepthMap × DepthMap × Time) :=
  s.lastBlockTrack.map (fun track =>
    (track.AssetE8DepthPerPool, track.RuneE8DepthPerPool, track.Timestamp))

/-! ## `Setup` -/

/-- The loop `for pool, E8 := range m` of `Setup`, whose body stores a copy of
`E8` under `target[pool]`. -/
def Setup.apply (target m : DepthMap) : DepthMap :=
  m.foldl (fun acc e => mapSet acc e.1 e.2) target

/-- The local `track` of `Setup` once the row set has been read: the zero
value when there is no row; the scanned row with its decoded aggregation state
when there is one (the result of `rows.Scan` is not looked at, the four columns
are taken as scanned); nothing when that state fails to decode. -/
def Setup.track {Q : Type} (c : Collaborators Q) (next : Option Row) : Option blockTrack :=
  match next with
  | none => some blockTrack.zero
  | some r =>
    match c.gobDecode r.agg_state blockTrack.zero.toaggTrack with
    | none => none
    | some a =>
      some { toaggTrack := a
             Height := r.height
             Timestamp := Unix 0 r.timestamp
             BlockTimestamp := 0
             Hash := r.hash }

/-- `Setup()`: the four returned values and the state it leaves. -/
def Setup {Q : Type} (c : Collaborators Q) (q : QueryResult) (s : State Q) :
    (Int × Time × Bytes × Option Error) × State Q :=
  match q with
  | .error => ((0, zeroTime, [], some Error.lastBlockLookup), s)
  | .rows next rowsErr =>
    match Setup.track c next with
    | none => ((0, zeroTime, [], some Error.malformedAggregationState), s)
    | some track =>
      -- sync in-memory tracker, apply aggregation state to recorder
      let totals : runningTotals :=
        { assetE8DepthPerPool :=
            Setup.apply s.recorder.runningTotals.assetE8DepthPerPool track.AssetE8DepthPerPool
          runeE8DepthPerPool :=
            Setup.apply s.recorder.runningTotals.runeE8DepthPerPool track.RuneE8DepthPerPool }
      ((track.Height, track.Timestamp, track.Hash,
          if rowsErr then some Error.rowsErr else none),
        { s with
          lastBlockTrack := some track
          recorder := { s.recorder with runningTotals := totals } })

/-! ## Start-up (`src/script.go`) -/

/-- The method `Duration.WithDefault`. -/
def Duration.WithDefault (d : Int) (dflt : Int) : Int :=
  if d = 0 then dflt else d

/-- How the part of `SetupBlockchain` before `timeseries.Setup()` ends: one of
its three `log.Fatal` exits (URL parsing and client instantiation belong to
other packages), or normally. -/
inductive ClientSetup where
  | malformedNodeURL
  | malformedRPCURL
  | clientInstantiation
  | ok
deriving DecidableEq, Repr

/-- The `log.Fatal` exits of `SetupBlockchain`. -/
inductive Fatal where
  | malformedNodeURL
  | malformedRPCURL
  | clientInstantiation
  | rdbUnavailable (err : Error)
deriving DecidableEq, Repr

/-- How `SetupBlockchain` ends: the process exits, or the follower is
launched with the cursor `offset`. -/
inductive Startup (Q : Type) where
  | exit (reason : Fatal) (s : State Q)
  | follow (offset : Int) (s : State Q)

/-- `SetupBlockchain` up to the launch of the follower. -/
def SetupBlockchain {Q : Type} (c : Collaborators Q) (client : ClientSetup)
    (q : QueryResult) (s : State Q) : Startup Q :=
  match client with
  | .malformedNodeURL => .exit Fatal.malformedNodeURL s
  | .malformedRPCURL => .exit Fatal.malformedRPCURL s
  | .clientInstantiation => .exit Fatal.clientInstantiation s
  | .ok =>
    -- fetch current position (from commit log)
    match Setup c q s with
    | ((_, _, _, some err), s1) => .exit (Fatal.rdbUnavailable err) s1
    | ((offset, _, _, none), s1) =>
      if offset ≠ 0 then
        .follow (wrap64 (offset + 1))
          { s1 with log := s1.log ++ [LogEntry.startingWithPrevious (wrap64 (offset + 1))] }
      else
        .follow offset s1

/-- The resume cursor of a start-up, when the follower is launched. -/
def Startup.cursor {Q : Type} : Startup Q → Option Int
  | .exit _ _ => none
  | .follow offset _ => some offset

/-- The state a start-up leaves. -/
def Startup.state {Q : Type} : Startup Q → State Q
  | .exit _ s => s
  | .follow _ s => s

/-- The subtraction of two monotonic clock readings in `time.Since` /
`Time.Sub`: computed in `int64` and clamped on overflow. -/
def subMono (t u : Int) : Int :=
  if wrap64 (t - u) < 0 ∧ t > u then maxInt64
  else if wrap64 (t - u) > 0 ∧ t < u then minInt64
  else wrap64 (t - u)

/-- `time.Since(t)` for a `t` taken with `time.Now()`: both instants carry a
monotonic clock reading (an `int64` count of nanoseconds), `now` being the
current one. -/
def Since (now t : Int) : Int := subMono now t

/-- The closure `api.InSync` at monotonic time `now`; `lastNoData` is the
content of the `atomic.Value` (nothing before the first `Store`, in which case
the type assertion panics) and `LastChainBackoff` the configured value. -/
def InSync (LastChainBackoff : Int) (lastNoData : Option Int) (now : Int) : Option Bool :=
  match lastNoData with
  | none => none
  | some t =>
    some (decide (Since now t < wrap64 (2 * Duration.WithDefault LastChainBackoff (7 * Second))))

/-! ## The follower's commits -/

/-- One block as the follower handles it: its events are applied to the
recorder (event decoding belongs to other packages, so any change of the
recorder is allowed), then `CommitBlock` is called with the block's timestamp
and hash; `fault` is what the database does at that call. -/
structure Block (Q : Type) where
  events : eventRecorder Q → eventRecorder Q
  timestamp : Time
  hash : Bytes
  fault : ExecFault

/-- The state on entry to the `CommitBlock` of a block. -/
def Block.entry {Q : Type} (b : Block Q) (s : State Q) : State Q :=
  { s with recorder := b.events s.recorder }

/-- The blocks are committed in order at the heights `height`, `height + 1`, ...;
the value is the final state, or nothing as soon as a `CommitBlock` returns an
error. -/
def commitRun {Q : Type} (c : Collaborators Q) : Int → List (Block Q) → State Q → Option (State Q)
  | _, [], s => some s
  | height, b :: bs, s =>
    match CommitBlock c b.fault (b.entry s) height b.timestamp b.hash with
    | (none, s1) => commitRun c (height + 1) bs s1
    | (some _, _) => none

/-- The codec decodes what it encoded, at a snapshot: the bytes the encoder
leaves for it decode, into a zero target, to a snapshot that holds the same two
mappings. -/
def DecodesEncoded {Q : Type} (c : Collaborators Q) (a : aggTrack) : Prop :=
  ∃ b : aggTrack, c.gobDecode (c.gobEncode a).1 blockTrack.zero.toaggTrack = some b ∧
    SameMapping b.AssetE8DepthPerPool a.AssetE8DepthPerPool ∧
    SameMapping b.RuneE8DepthPerPool a.RuneE8DepthPerPool

/-! ## A concrete instance for the examples

A small length-prefixed byte codec stands in for gob, and the deferred queue
holds pending outbound amounts per pool, all of which `ApplyOutboundQ` takes
off the rune depths. -/

namespace Sample

/-- Eight bytes, big endian, two's complement. -/
def encInt (v : Int) : Bytes :=
  (List.range 8).map (fun i => UInt8.ofNat ((v % 2 ^ 64).toNat / 256 ^ (7 - i) % 256))

/-- Reads back `encInt`. -/
def decInt (bs : Bytes) : Option (Int × Bytes) :=
  if bs.length < 8 then none
  else some (wrap64 ((bs.take 8).foldl (fun acc b => acc * 256 + b.toNat) (0 : Nat)), bs.drop 8)

/-- A pool name (its length, then its characters) followed by the depth. -/
def encEntry (e : String × Int) : Bytes :=
  UInt8.ofNat e.1.length :: e.1.toList.map (fun ch => UInt8.ofNat ch.toNat) ++ encInt e.2

/-- Reads back `encEntry`. -/
def decEntry (bs : Bytes) : Option ((String × Int) × Bytes) :=
  match bs with
  | [] => none
  | n :: rest =>
    if rest.length < n.toNat then none
    else
      match decInt (rest.drop n.toNat) with
      | none => none
      | some (v, rest2) =>
        some ((String.mk ((rest.take n.toNat).map (fun b => Char.ofNat b.toNat)), v), rest2)

/-- Reads back a given number of entries. -/
def decEntries : Nat → Bytes → Option (DepthMap × Bytes)
  | 0, bs => some ([], bs)
  | n + 1, bs =>
    match decEntry bs with
    | none => none
    | some (e, rest) =>
      match decEntries n rest with
      | none => none
      | some (es, rest2) => some (e :: es, rest2)

/-- The number of entries, then the entries. -/
def encMap (m : DepthMap) : Bytes := UInt8.ofNat m.length :: m.flatMap encEntry

/-- Reads back `encMap`. -/
def decMap (bs : Bytes) : Option (DepthMap × Bytes) :=
  match bs with
  | [] => none
  | n :: rest => decEntries n.toNat rest

/-- The asset depths, then the rune depths; it never fails. -/
def encode (a : aggTrack) : Bytes × Bool :=
  (encMap a.AssetE8DepthPerPool ++ encMap a.RuneE8DepthPerPool, false)

/-- Reads back `encode`; the entries read are stored into the target's maps. -/
def decode (bs : Bytes) (a : aggTrack) : Option aggTrack :=
  match decMap bs with
  | none => none
  | some (asset, rest) =>
    match decMap rest with
    | none => none
    | some (rune, _) =>
      some { AssetE8DepthPerPool := Setup.apply a.AssetE8DepthPerPool asset
             RuneE8DepthPerPool := Setup.apply a.RuneE8DepthPerPool rune }

/-- Every pending outbound amount is taken off the rune depth of its pool. -/
def drain (q : DepthMap) (t : runningTotals) : DepthMap × runningTotals :=
  ([], q.foldl (fun acc e =>
    { assetE8DepthPerPool := acc.assetE8DepthPerPool
      runeE8DepthPerPool :=
        mapSet acc.runeE8DepthPerPool e.1 (((acc.runeE8DepthPerPool.lookup e.1).getD 0) - e.2) }) t)

/-- The collaborators of the examples. -/
def collaborators : Collaborators DepthMap :=
  { gobEncode := encode
    gobDecode := decode
    ApplyOutboundQ := fun q t _ _ => drain q t
    ApplyFeeQ := fun q t _ _ => (q, t) }

/-- The same with an encoder that fails before it has written anything. -/
def failingEncoder : Collaborators DepthMap :=
  { collaborators with gobEncode := fun _ => ([], true) }

/-- A fresh process on an empty table: the pool `BNB.BNB` holds 500 asset and
1000 rune, and an outbound of 10 rune is pending. -/
def state : State DepthMap :=
  { block_log := []
    execCalls := []
    recorder :=
      { runningTotals :=
          { assetE8DepthPerPool := [("BNB.BNB", 500)], runeE8DepthPerPool := [("BNB.BNB", 1000)] }
        linkedEvents := [("BNB.BNB", 10)] }
    lastBlockTrack := none
    log := [] }

/-- A process that has just started: nothing recorded, nothing tracked. -/
def fresh (tbl : List Row) : State DepthMap :=
  { block_log := tbl
    execCalls := []
    recorder :=
      { runningTotals := { assetE8DepthPerPool := [], runeE8DepthPerPool := [] }
        linkedEvents := [] }
    lastBlockTrack := none
    log := [] }

/-- A block without events and without a database fault. -/
def block (timestamp : Time) (hash : Bytes) : Block DepthMap :=
  { events := fun r => r, timestamp := timestamp, hash := hash, fault := .ok }

end Sample

/-! ## The follower loop (`src/script.go`) -/

/-- What the follower goroutine works on: its cursor `offset`, the shared
`lastNoData` (an `atomic.Value`, empty until the first `Store`; a reading of
the monotonic clock), the cursor handed to each call of `client.Follow` so far
(one entry per call, in order) and the lines it logged. -/
structure Follower where
  offset : Int
  lastNoData : Option Int
  followCalls : List Int
  log : List LogEntry
deriving DecidableEq, Repr

/-- What the surroundings give to one iteration: the value `client.Follow(ch,
offset, nil)` returns for the cursor it is handed (the block source belongs to
another package: the height it returns and its error, nil or not), and the
reading `time.Now()` takes. -/
structure Turn where
  Follow : Int → Int × Option FollowError
  now : Int

/-- One iteration of the `for` loop of the follower, up to the wait on the
ticker. -/
def followIteration (t : Turn) (f : Follower) : Follower :=
  -- offset, err = client.Follow(ch, offset, nil)
  let r := t.Follow f.offset
  let f1 : Follower := { f with offset := r.1, followCalls := f.followCalls ++ [f.offset] }
  match r.2 with
  | some FollowError.ErrNoData => { f1 with lastNoData := some t.now }
  | err => { f1 with log := f1.log ++ [LogEntry.followBlockchainRetry err] }

/-- The first iterations of the loop, one per turn. -/
def followLoop (turns : List Turn) (f : Follower) : Follower :=
  turns.foldl (fun acc t => followIteration t acc) f

/-- The follower goroutine launched with a cursor: `time.NewTicker` panics on
a duration that is not positive, otherwise the loop runs. -/
def follower (LastChainBackoff : Int) (offset : Int) (turns : List Turn) : Option Follower :=
  if Duration.WithDefault LastChainBackoff (7 * Second) ≤ 0 then none
  else some (followLoop turns { offset := offset, lastNoData := none, followCalls := [], log := [] })

/-- A block source for the examples: three blocks are delivered, then the
connection breaks. -/
def Sample.brokenAfterThree : Turn :=
  { Follow := fun offset => (offset + 3, some FollowError.other), now := 5000000000 }

/-- A block source for the examples: the chain has nothing beyond the cursor. -/
def Sample.noData : Turn :=
  { Follow := fun offset => (offset, some FollowError.ErrNoData), now := 8000000000 }

/-! ## The read queries (`src/timeseries.go`) -/

/-- The struct `midgard`: one field per read query. -/
structure midgard where
  TotalRuneStakes : Int
  TotalRunUnstakes : Int
  TotalRuneSwapIn : Int
  TotalRuneSwapOut : Int
  Fees : Int
  PoolDeductRefunds : Int
  RuneFeesSwaps : Int
  PoolDeductSwaps : Int
  RuneFeeUnstakes : Int
  PoolDeductUnstakes : Int
  Adds : Int
  Rewards : Int
  Errata : Int
  Gas : Int
deriving DecidableEq, Repr

/-- The zero value of `midgard` (`var mg midgard`). -/
def midgard.zero : midgard :=
  { TotalRuneStakes := 0
    TotalRunUnstakes := 0
    TotalRuneSwapIn := 0
    TotalRuneSwapOut := 0
    Fees := 0
    PoolDeductRefunds := 0
    RuneFeesSwaps := 0
    PoolDeductSwaps := 0
    RuneFeeUnstakes := 0
    PoolDeductUnstakes := 0
    Adds := 0
    Rewards := 0
    Errata := 0
    Gas := 0 }

/-- A call `DBQuery(ctx, sql, pool, blockTimeStamp)` of a read query. -/
structure SumQuery where
  sql : String
  pool : String
  blockTimeStamp : Int
deriving DecidableEq, Repr

/-- What a read query sees of `DBQuery`: an error, or a row set whose first
`rows.Next()` delivers no row, a row whose column is NULL, or a row whose
column holds an integer (the sum, which the database computes without the
bound of an `int64`). -/
inductive SumRows where
  | error (err : String)
  | rows (next : Option (Option Int))
deriving DecidableEq, Repr

/-- The statement `if rows.Next()` with the body `rows.Scan(&mg.field)` on a
fresh `mg`; `store` writes the field that is scanned into. `rows.Scan` fails
on NULL and on an integer that no `int64` holds, and then leaves its target as
it is; its result is not looked at. -/
def scanInto (next : Option (Option Int)) (store : midgard → Int → midgard) : midgard :=
  match next with
  | some (some v) => if IsInt64 v then store midgard.zero v else midgard.zero
  | _ => midgard.zero

/-- The call of `DBQuery` in `GetTotalRuneStakes`. -/
def GetTotalRuneStakes.query (pool : String) (blockTimeStamp : Int) : SumQuery :=
  { sql :=
      "select sum(rune_e8) from stake_events where pool = $1 and" ++
      " block_timestamp <= $2"
    pool := pool
    blockTimeStamp := blockTimeStamp }

/-- `GetTotalRuneStakes(pool, blockTimeStamp)`: the two returned values, and the number
printed with `log.Print` (nothing is printed when the query fails). -/
def GetTotalRuneStakes (db : SumQuery → SumRows) (pool : String) (blockTimeStamp : Int) :
    (Int × Option String) × Option Int :=
  match db (GetTotalRuneStakes.query pool blockTimeStamp) with
  | .error err => ((0, some err), none)
  | .rows next =>
    let mg := scanInto next (fun mg v => { mg with TotalRuneStakes := v })
    ((mg.TotalRuneStakes, none), some mg.TotalRuneStakes)

/-- The call of `DBQuery` in `GetTotalRunUnstakes`. -/
def GetTotalRunUnstakes.query (pool : String) (blockTimeStamp : Int) : SumQuery :=
  { sql :=
      "select sum(oe." ++
      "asset_e8) from outbound_events oe join unstake_events ue on (ue." ++
      "tx = oe.in_tx) where oe.asset = 'BNB.RUNE-B1A' and ue." ++
      "pool = $1 and oe.block_timestamp <= $2"
    pool := pool
    blockTimeStamp := blockTimeStamp }

/-- `GetTotalRunUnstakes(pool, blockTimeStamp)`: the two returned values, and the number
printed with `log.Print` (nothing is printed when the query fails). -/
def GetTotalRunUnstakes (db : SumQuery → SumRows) (pool : String) (blockTimeStamp : Int) :
    (Int × Option String) × Option Int :=
  match db (GetTotalRunUnstakes.query pool blockTimeStamp) with
  | .error err => ((0, some err), none)
  | .rows next =>
    let mg := scanInto next (fun mg v => { mg with TotalRunUnstakes := v })
    ((mg.TotalRunUnstakes, none), some mg.TotalRunUnstakes)

/-- The call of `DBQuery` in `GetTotalRuneSwapIn`. -/
def GetTotalRuneSwapIn.query (pool : String) (blockTimeStamp : Int) : SumQuery :=
  { sql :=
      "select sum(from_e8) from swap_events where pool = $1 and" ++
      " from_asset = 'BNB.RUNE-B1A' and block_timestamp <= $2"
    pool := pool
    blockTimeStamp := blockTimeStamp }

/-- `GetTotalRuneSwapIn(pool, blockTimeStamp)`: the two returned values, and the number
printed with `log.Print` (nothing is printed when the query fails). -/
def GetTotalRuneSwapIn (db : SumQuery → SumRows) (pool : String) (blockTimeStamp : Int) :
    (Int × Option String) × Option Int :=
  match db (GetTotalRuneSwapIn.query pool blockTimeStamp) with
  | .error err => ((0, some err), none)
  | .rows next =>
    let mg := scanInto next (fun mg v => { mg with TotalRuneSwapIn := v })
    ((mg.TotalRuneSwapIn, none), some mg.TotalRuneSwapIn)

/-- The call of `DBQuery` in `GetTotalRuneSwapOut`. -/
def GetTotalRuneSwapOut.query (pool : String) (blockTimeStamp : Int) : SumQuery :=
  { sql :=
      "select sum(asset_e8) from outbound_events oe join swap_events" ++
      " se on (se.tx = oe.in_tx) where oe.asset = 'BNB.RUNE-B1A' and se." ++
      "pool = $1 and se.from_asset != 'BNB.RUNE-B1A' and se." ++
      "block_timestamp <= $2"
    pool := pool
    blockTimeStamp := blockTimeStamp }

/-- `GetTotalRuneSwapOut(pool, blockTimeStamp)`: the two returned values, and the number
printed with `log.Print` (nothing is printed when the query fails). -/
def GetTotalRuneSwapOut (db : SumQuery → SumRows) (pool : String) (blockTimeStamp : Int) :
    (Int × Option String) × Option Int :=
  match db (GetTotalRuneSwapOut.query pool blockTimeStamp) with
  | .error err => ((0, some err), none)
  | .rows next =>
    let mg := scanInto next (fun mg v => { mg with TotalRuneSwapOut := v })
    ((mg.TotalRuneSwapOut, none), some mg.TotalRuneSwapOut)

/-- The call of `DBQuery` in `GetFees`. -/
def GetFees.query (pool : String) (blockTimeStamp : Int) : SumQuery :=
  { sql :=
      "select sum(asset_e8) from fee_events fe join swap_events se on" ++
      " (se.tx = fe.tx) where fe.asset = 'BNB.RUNE-B1A' and se." ++
      "pool = $1 and se.block_timestamp <= $2"
    pool := pool
    blockTimeStamp := blockTimeStamp }

/-- `GetFees(pool, blockTimeStamp)`: the two returned values, and the number
printed with `log.Print` (nothing is printed when the query fails). -/
def GetFees (db : SumQuery → SumRows) (pool : String) (blockTimeStamp : Int) :
    (Int × Option String) × Option Int :=
  match db (GetFees.query pool blockTimeStamp) with
  | .error err => ((0, some err), none)
  | .rows next =>
    let mg := scanInto next (fun mg v => { mg with Fees := v })
    ((mg.Fees, none), some mg.Fees)

/-- The call of `DBQuery` in `GetPoolDeductRefunds`. -/
def GetPoolDeductRefunds.query (pool : String) (blockTimeStamp : Int) : SumQuery :=
  { sql :=
      "select sum(pool_deduct) from fee_events fe join refund_events" ++
      " re on (re.tx = fe.tx) where fe.asset != 'BNB.RUNE-B1A' and re." ++
      "asset = $1 and re.block_timestamp <= $2"
    pool := pool
    blockTimeStamp := blockTimeStamp }

/-- `GetPoolDeductRefunds(pool, blockTimeStamp)`: the two returned values, and the number
printed with `log.Print` (nothing is printed when the query fails). -/
def GetPoolDeductRefunds (db : SumQuery → SumRows) (pool : String) (blockTimeStamp : Int) :
    (Int × Option String) × Option Int :=
  match db (GetPoolDeductRefunds.query pool blockTimeStamp) with
  | .error err => ((0, some err), none)
  | .rows next =>
    let mg := scanInto next (fun mg v => { mg with PoolDeductRefunds := v })
    ((mg.PoolDeductRefunds, none), some mg.PoolDeductRefunds)

/-- The call of `DBQuery` in `GetRuneFeesSwaps`. -/
def GetRuneFeesSwaps.query (pool : String) (blockTimeStamp : Int) : SumQuery :=
  { sql :=
      "select sum(asset_e8) from fee_events fe join swap_events se on" ++
      " (se.tx = fe.tx) where fe.asset = 'BNB.RUNE-B1A' and se." ++
      "pool = $1 and se.block_timestamp <= $2"
    pool := pool
    blockTimeStamp := blockTimeStamp }

/-- `GetRuneFeesSwaps(pool, blockTimeStamp)`: the two returned values, and the number
printed with `log.Print` (nothing is printed when the query fails). -/
def GetRuneFeesSwaps (db : SumQuery → SumRows) (pool : String) (blockTimeStamp : Int) :
    (Int × Option String) × Option Int :=
  match db (GetRuneFeesSwaps.query pool blockTimeStamp) with
  | .error err => ((0, some err), none)
  | .rows next =>
    let mg := scanInto next (fun mg v => { mg with RuneFeesSwaps := v })
    ((mg.RuneFeesSwaps, none), some mg.RuneFeesSwaps)

/-- The call of `DBQuery` in `GetPoolDeductSwaps`. -/
def GetPoolDeductSwaps.query (pool : String) (blockTimeStamp : Int) : SumQuery :=
  { sql :=
      "select sum(pool_deduct) from fee_events fe join swap_events se" ++
      " on (se.tx = fe.tx) where fe.asset != 'BNB.RUNE-B1A' and se." ++
      "pool = $1 and se.block_timestamp <= $2"
    pool := pool
    blockTimeStamp := blockTimeStamp }

/-- `GetPoolDeductSwaps(pool, blockTimeStamp)`: the two returned values, and the number
printed with `log.Print` (nothing is printed when the query fails). -/
def GetPoolDeductSwaps (db : SumQuery → SumRows) (pool : String) (blockTimeStamp : Int) :
    (Int × Option String) × Option Int :=
  match db (GetPoolDeductSwaps.query pool blockTimeStamp) with
  | .error err => ((0, some err), none)
  | .rows next =>
    let mg := scanInto next (fun mg v => { mg with PoolDeductSwaps := v })
    ((mg.PoolDeductSwaps, none), some mg.PoolDeductSwaps)

/-- The call of `DBQuery` in `GetRuneFeeUnstakes`. -/
def GetRuneFeeUnstakes.query (pool : String) (blockTimeStamp : Int) : SumQuery :=
  { sql :=
      "select sum(fe.asset_e8) from fee_events fe join unstake_events" ++
      " ue on (ue.tx = fe.tx) where fe.asset = 'BNB.RUNE-B1A' and ue." ++
      "pool = $1 and fe.block_timestamp <= $2"
    pool := pool
    blockTimeStamp := blockTimeStamp }

/-- `GetRuneFeeUnstakes(pool, blockTimeStamp)`: the two returned values, and the number
printed with `log.Print` (nothing is printed when the query fails). -/
def GetRuneFeeUnstakes (db : SumQuery → SumRows) (pool : String) (blockTimeStamp : Int) :
    (Int × Option String) × Option Int :=
  match db (GetRuneFeeUnstakes.query pool blockTimeStamp) with
  | .error err => ((0, some err), none)
  | .rows next =>
    let mg := scanInto next (fun mg v => { mg with RuneFeeUnstakes := v })
    ((mg.RuneFeeUnstakes, none), some mg.RuneFeeUnstakes)

/-- The call of `DBQuery` in `GetPoolDeductUnstakes`. -/
def GetPoolDeductUnstakes.query (pool : String) (blockTimeStamp : Int) : SumQuery :=
  { sql :=
      "select sum(pool_deduct) from fee_events fe join unstake_events" ++
      " ue on (ue.tx = fe.tx) where fe.asset != 'BNB.RUNE-B1A' and ue." ++
      "pool = 'BNB.BNB' and fe.block_timestamp <= $2"
    pool := pool
    blockTimeStamp := blockTimeStamp }

/-- `GetPoolDeductUnstakes(pool, blockTimeStamp)`: the two returned values, and the number
printed with `log.Print` (nothing is printed when the query fails). -/
def GetPoolDeductUnstakes (db : SumQuery → SumRows) (pool : String) (blockTimeStamp : Int) :
    (Int × Option String) × Option Int :=
  match db (GetPoolDeductUnstakes.query pool blockTimeStamp) with
  | .error err => ((0, some err), none)
  | .rows next =>
    let mg := scanInto next (fun mg v => { mg with PoolDeductUnstakes := v })
    ((mg.PoolDeductRefunds, none), some mg.PoolDeductUnstakes)

/-- The call of `DBQuery` in `GetAdds`. -/
def GetAdds.query (pool : String) (blockTimeStamp : Int) : SumQuery :=
  { sql :=
      "select sum(rune_e8) from add_events where pool = $1 and" ++
      " block_timestamp <=  $2"
    pool := pool
    blockTimeStamp := blockTimeStamp }

/-- `GetAdds(pool, blockTimeStamp)`: the two returned values, and the number
printed with `log.Print` (nothing is printed when the query fails). -/
def GetAdds (db : SumQuery → SumRows) (pool : String) (blockTimeStamp : Int) :
    (Int × Option String) × Option Int :=
  match db (GetAdds.query pool blockTimeStamp) with
  | .error err => ((0, some err), none)
  | .rows next =>
    let mg := scanInto next (fun mg v => { mg with Adds := v })
    ((mg.Rewards, none), some mg.Adds)

/-- The call of `DBQuery` in `GetRewards`. -/
def GetRewards.query (pool : String) (blockTimeStamp : Int) : SumQuery :=
  { sql :=
      "select sum(rune_e8) from rewards_event_entries where pool" ++
      " = $1 and block_timestamp <=  $2"
    pool := pool
    blockTimeStamp := blockTimeStamp }

/-- `GetRewards(pool, blockTimeStamp)`: the two returned values, and the number
printed with `log.Print` (nothing is printed when the query fails). -/
def GetRewards (db : SumQuery → SumRows) (pool : String) (blockTimeStamp : Int) :
    (Int × Option String) × Option Int :=
  match db (GetRewards.query pool blockTimeStamp) with
  | .error err => ((0, some err), none)
  | .rows next =>
    let mg := scanInto next (fun mg v => { mg with Rewards := v })
    ((mg.Rewards, none), some mg.Rewards)

/-- The call of `DBQuery` in `GetErrata`. -/
def GetErrata.query (pool : String) (blockTimeStamp : Int) : SumQuery :=
  { sql :=
      "select sum(rune_e8) from errata_events where asset = $1 and" ++
      " block_timestamp <=  $2"
    pool := pool
    blockTimeStamp := blockTimeStamp }

/-- `GetErrata(pool, blockTimeStamp)`: the two returned values, and the number
printed with `log.Print` (nothing is printed when the query fails). -/
def GetErrata (db : SumQuery → SumRows) (pool : String) (blockTimeStamp : Int) :
    (Int × Option String) × Option Int :=
  match db (GetErrata.query pool blockTimeStamp) with
  | .error err => ((0, some err), none)
  | .rows next =>
    let mg := scanInto next (fun mg v => { mg with Errata := v })
    ((mg.Errata, none), some mg.Errata)

/-- The call of `DBQuery` in `GetGas`. -/
def GetGas.query (pool : String) (blockTimeStamp : Int) : SumQuery :=
  { sql :=
      "select sum(rune_e8) from gas_events where asset = $1 and" ++
      " block_timestamp <= $2"
    pool := pool
    blockTimeStamp := blockTimeStamp }

/-- `GetGas(pool, blockTimeStamp)`: the two returned values, and the number
printed with `log.Print` (nothing is printed when the query fails). -/
def GetGas (db : SumQuery → SumRows) (pool : String) (blockTimeStamp : Int) :
    (Int × Option String) × Option Int :=
  match db (GetGas.query pool blockTimeStamp) with
  | .error err => ((0, some err), none)
  | .rows next =>
    let mg := scanInto next (fun mg v => { mg with Gas := v })
    ((mg.Gas, none), some mg.Gas)

/-- A database for the examples: the sum of `add_events` is 5, the one of the
pool deductions of unstakes 11, the one of `rewards_event_entries` 7, and every
other sum is NULL. -/
def Sample.sums (q : SumQuery) : SumRows :=
  if q.sql = (GetAdds.query q.pool q.blockTimeStamp).sql then .rows (some (some 5))
  else if q.sql = (GetPoolDeductUnstakes.query q.pool q.blockTimeStamp).sql then
    .rows (some (some 11))
  else if q.sql = (GetRewards.query q.pool q.blockTimeStamp).sql then .rows (some (some 7))
  else .rows (some none)

/-! ## Lemmas on slices and on the table -/

theorem copy_make (hash : Bytes) : copy (make hash.length) hash = hash := by
  simp [copy, make]

theorem rowsAt_append (tbl : List Row) (r : Row) (h : Int) :
    rowsAt (tbl ++ [r]) h = rowsAt tbl h ++ (if r.height = h then [r] else []) := by
  unfold rowsAt
  by_cases hr : r.height = h <;> simp [List.filter_append, List.filter_cons, hr]

theorem rowsAt_eq_nil_iff (tbl : List Row) (h : Int) :
    rowsAt tbl h = [] ↔ h ∉ tbl.map Row.height := by
  unfold rowsAt
  simp only [List.filter_eq_nil_iff, List.mem_map, decide_eq_true_eq, not_exists, not_and]

theorem rowsAt_length_le_one (tbl : List Row) (h : Int) (hkey : Keyed tbl) :
    (rowsAt tbl h).length ≤ 1 := by
  induction tbl with
  | nil => simp [rowsAt]
  | cons r tl ih =>
    have hk : r.height ∉ tl.map Row.height ∧ Keyed tl := by
      simpa [Keyed, List.nodup_cons] using hkey
    by_cases hr : r.height = h
    · have hnil : rowsAt tl h = [] := (rowsAt_eq_nil_iff tl h).2 (hr ▸ hk.1)
      have : rowsAt (r :: tl) h = r :: rowsAt tl h := by simp [rowsAt, List.filter_cons, hr]
      simp [this, hnil]
    · have : rowsAt (r :: tl) h = rowsAt tl h := by simp [rowsAt, List.filter_cons, hr]
      simpa [this] using ih hk.2

theorem insertOrIgnore_keyed (tbl : List Row) (r : Row) (hkey : Keyed tbl) :
    Keyed (insertOrIgnore tbl r).1 := by
  unfold insertOrIgnore
  split
  · exact hkey
  · rename_i hr
    unfold Keyed at *
    rw [List.map_append, List.nodup_append]
    refine ⟨hkey, by simp, ?_⟩
    intro a ha hb
    simp at hb
    exact hr (hb ▸ ha)

theorem insertOrIgnore_taken (tbl : List Row) (r : Row) (hr : r.height ∈ tbl.map Row.height) :
    insertOrIgnore tbl r = (tbl, 0) := by
  simp only [insertOrIgnore, hr, if_true]

theorem insertOrIgnore_free (tbl : List Row) (r : Row) (hr : r.height ∉ tbl.map Row.height) :
    insertOrIgnore tbl r = (tbl ++ [r], 1) := by
  simp only [insertOrIgnore, hr, if_false]

theorem insertOrIgnore_mem_heights (tbl : List Row) (r : Row) :
    r.height ∈ (insertOrIgnore tbl r).1.map Row.height := by
  unfold insertOrIgnore
  split
  · assumption
  · simp

theorem insertOrIgnore_rowsAt_other (tbl : List Row) (r : Row) (h : Int) (hne : r.height ≠ h) :
    rowsAt (insertOrIgnore tbl r).1 h = rowsAt tbl h := by
  unfold insertOrIgnore
  split
  · rfl
  · simp [rowsAt_append, hne]

/-! ## Lemmas on `CommitBlock` -/

section CommitLemmas

variable {Q : Type} (c : Collaborators Q) (s : State Q) (height : Int) (timestamp : Time)
  (hash : Bytes)

theorem CommitBlock_ok_error : (CommitBlock c .ok s height timestamp hash).1 = none := rfl

theorem CommitBlock_ok_block_log :
    (CommitBlock c .ok s height timestamp hash).2.block_log
      = (insertOrIgnore s.block_log (CommitBlock.row c s height timestamp hash)).1 := rfl

theorem CommitBlock_block_log_cases (fault : ExecFault) :
    (CommitBlock c fault s height timestamp hash).2.block_log = s.block_log ∨
    (CommitBlock c fault s height timestamp hash).2.block_log
      = (insertOrIgnore s.block_log (CommitBlock.row c s height timestamp hash)).1 := by
  cases fault
  · exact Or.inr rfl
  · exact Or.inl rfl
  · exact Or.inr rfl

theorem CommitBlock_execCalls (fault : ExecFault) :
    (CommitBlock c fault s height timestamp hash).2.execCalls
      = s.execCalls ++ [CommitBlock.row c s height timestamp hash] := by
  cases fault <;> rfl

theorem CommitBlock_ok_tracker :
    (CommitBlock c .ok s height timestamp hash).2.lastBlockTrack
      = some (CommitBlock.track s height timestamp hash) := rfl

theorem CommitBlock_error_iff (fault : ExecFault) :
    (CommitBlock c fault s height timestamp hash).1 = none ↔ fault = .ok := by
  cases fault <;> simp [CommitBlock, DBExec]

end CommitLemmas

/-! ## Idempotent, append-only commit -/

/-- C1. Two `CommitBlock` calls for the same height whose database write
succeeds, on a table keyed by height (the second call may start from any state
that holds the table the first call left): the second call returns no error,
leaves the table as the first call left it, exactly one row is stored for the
height, that row is the one the first call wrote when the height was free
before (its timestamp in nanoseconds, its hash, its encoded snapshot), and the
second call only logs that the height was already committed. -/
theorem CommitBlock_same_height_twice {Q : Type} (c : Collaborators Q) (s s1 : State Q)
    (h : Int) (ts1 ts2 : Time) (hash1 hash2 : Bytes)
    (hkey : Keyed s.block_log)
    (hs1 : s1.block_log = (CommitBlock c .ok s h ts1 hash1).2.block_log) :
    (CommitBlock c .ok s1 h ts2 hash2).1 = none ∧
    (CommitBlock c .ok s1 h ts2 hash2).2.block_log
      = (CommitBlock c .ok s h ts1 hash1).2.block_log ∧
    (rowsAt (CommitBlock c .ok s1 h ts2 hash2).2.block_log h).length = 1 ∧
    (rowsAt s.block_log h = [] →
      rowsAt (CommitBlock c .ok s1 h ts2 hash2).2.block_log h
        = [{ height := h
             timestamp := UnixNano ts1
             hash := hash1
             agg_state := (c.gobEncode
               { AssetE8DepthPerPool := s.recorder.runningTotals.AssetE8DepthPerPool
                 RuneE8DepthPerPool := s.recorder.runningTotals.RuneE8DepthPerPool }).1 }]) ∧
    LogEntry.alreadyCommitted h ∈ (CommitBlock c .ok s1 h ts2 hash2).2.log := by
  have hrow1 : (CommitBlock.row c s h ts1 hash1).height = h := rfl
  have hrow2 : (CommitBlock.row c s1 h ts2 hash2).height = h := rfl
  have hmem : h ∈ s1.block_log.map Row.height := by
    rw [hs1, CommitBlock_ok_block_log]
    have := insertOrIgnore_mem_heights s.block_log (CommitBlock.row c s h ts1 hash1)
    rwa [hrow1] at this
  have htaken := insertOrIgnore_taken s1.block_log (CommitBlock.row c s1 h ts2 hash2)
    (by rw [hrow2]; exact hmem)
  have hlog2 : (CommitBlock c .ok s1 h ts2 hash2).2.block_log = s1.block_log := by
    rw [CommitBlock_ok_block_log, htaken]
  have hkey1 : Keyed s1.block_log := by
    rw [hs1, CommitBlock_ok_block_log]
    exact insertOrIgnore_keyed _ _ hkey
  refine ⟨rfl, by rw [hlog2, hs1], ?_, ?_, ?_⟩
  · rw [hlog2]
    have hle := rowsAt_length_le_one s1.block_log h hkey1
    have hne : rowsAt s1.block_log h ≠ [] := fun hnil =>
      (rowsAt_eq_nil_iff s1.block_log h).1 hnil hmem
    have hpos : 0 < (rowsAt s1.block_log h).length := List.length_pos.2 hne
    omega
  · intro hfree
    rw [hlog2, hs1, CommitBlock_ok_block_log]
    have hnot : (CommitBlock.row c s h ts1 hash1).height ∉ s.block_log.map Row.height := by
      rw [hrow1]; exact (rowsAt_eq_nil_iff s.block_log h).1 hfree
    rw [insertOrIgnore_free _ _ hnot, rowsAt_append, hfree, hrow1]
    simp [CommitBlock.row, CommitBlock.track]
  · have : (CommitBlock c .ok s1 h ts2 hash2).2.log
        = (if (c.gobEncode (CommitBlock.track s1 h ts2 hash2).toaggTrack).2
            then s1.log ++ [LogEntry.aggregationStateOmitted] else s1.log)
          ++ [LogEntry.alreadyCommitted h] := by
      simp [CommitBlock, DBExec, htaken]
    rw [this]
    simp

/-- C1, at a concrete input: height 7 is committed twice on the empty table,
with different timestamps and hashes; the table keeps the first row only. -/
theorem CommitBlock_same_height_twice_witness :
    (CommitBlock Sample.collaborators .ok
        (CommitBlock Sample.collaborators .ok Sample.state 7 1600000000000000000 [1, 2]).2
        7 1600000000000000009 [3]).1 = none ∧
    (CommitBlock Sample.collaborators .ok
        (CommitBlock Sample.collaborators .ok Sample.state 7 1600000000000000000 [1, 2]).2
        7 1600000000000000009 [3]).2.block_log
      = [{ height := 7, timestamp := 1600000000000000000, hash := [1, 2],
           agg_state := [1, 7, 66, 78, 66, 46, 66, 78, 66, 0, 0, 0, 0, 0, 0, 1, 244,
                         1, 7, 66, 78, 66, 46, 66, 78, 66, 0, 0, 0, 0, 0, 0, 3, 232] }] := by
  have h := CommitBlock_same_height_twice Sample.collaborators Sample.state
    (CommitBlock Sample.collaborators .ok Sample.state 7 1600000000000000000 [1, 2]).2
    7 1600000000000000000 1600000000000000009 [1, 2] [3] (by decide) rfl
  exact ⟨h.1, by rw [h.2.1]; decide⟩

/-- C2. `CommitBlock` is append-only, whatever the database does: committing
a height leaves the rows stored under every other height as they were (so the
row of `h1 < h2` is untouched by the commit of `h2`), and the table afterwards
is the table before, or the table before followed by one new row for the
committed height; no row is updated or deleted. -/
theorem CommitBlock_append_only {Q : Type} (c : Collaborators Q) (fault : ExecFault)
    (s : State Q) (h1 h2 : Int) (timestamp : Time) (hash : Bytes) (hne : h1 ≠ h2) :
    rowsAt (CommitBlock c fault s h2 timestamp hash).2.block_log h1 = rowsAt s.block_log h1 ∧
    ((CommitBlock c fault s h2 timestamp hash).2.block_log = s.block_log ∨
      ∃ r : Row, r.height = h2 ∧
        (CommitBlock c fault s h2 timestamp hash).2.block_log = s.block_log ++ [r]) := by
  have hrow : (CommitBlock.row c s h2 timestamp hash).height = h2 := rfl
  have hins : ∀ tbl : List Row,
      tbl = (insertOrIgnore s.block_log (CommitBlock.row c s h2 timestamp hash)).1 →
      rowsAt tbl h1 = rowsAt s.block_log h1 ∧
      (tbl = s.block_log ∨ ∃ r : Row, r.height = h2 ∧ tbl = s.block_log ++ [r]) := by
    intro tbl htbl
    subst htbl
    refine ⟨insertOrIgnore_rowsAt_other _ _ _ (by rw [hrow]; exact fun e => hne e.symm), ?_⟩
    unfold insertOrIgnore
    split
    · exact Or.inl rfl
    · exact Or.inr ⟨_, hrow, rfl⟩
  rcases CommitBlock_block_log_cases c s h2 timestamp hash fault with h | h
  · rw [h]; exact ⟨rfl, Or.inl rfl⟩
  · exact hins _ h

/-- C2, at a concrete input: with a row stored at height 7, the commit of
height 8 leaves that row as it was. -/
theorem CommitBlock_append_only_witness :
    rowsAt (CommitBlock Sample.collaborators .ok
        (CommitBlock Sample.collaborators .ok Sample.state 7 1600000000000000000 [1, 2]).2
        8 1600000000000000009 [3]).2.block_log 7
      = rowsAt (CommitBlock Sample.collaborators .ok Sample.state 7
          1600000000000000000 [1, 2]).2.block_log 7 :=
  (CommitBlock_append_only Sample.collaborators .ok
    (CommitBlock Sample.collaborators .ok Sample.state 7 1600000000000000000 [1, 2]).2
    7 8 1600000000000000009 [3] (by decide)).1

/-! ## The tracker after a commit -/

theorem AssetE8DepthPerPool_copy (t : runningTotals) :
    t.AssetE8DepthPerPool = t.assetE8DepthPerPool := by
  simp [runningTotals.AssetE8DepthPerPool]

theorem RuneE8DepthPerPool_copy (t : runningTotals) :
    t.RuneE8DepthPerPool = t.runeE8DepthPerPool := by
  simp [runningTotals.RuneE8DepthPerPool]

theorem CommitBlock_track_eq {Q : Type} (s : State Q) (height : Int) (timestamp : Time)
    (hash : Bytes) :
    CommitBlock.track s height timestamp hash
      = { AssetE8DepthPerPool := s.recorder.runningTotals.assetE8DepthPerPool
          RuneE8DepthPerPool := s.recorder.runningTotals.runeE8DepthPerPool
          Height := height
          Timestamp := timestamp
          BlockTimestamp := 0
          Hash := hash } := by
  simp [CommitBlock.track, copy_make, AssetE8DepthPerPool_copy, RuneE8DepthPerPool_copy]

/-- C3. When `CommitBlock(height, timestamp, hash)` returns no error, the
tracker is the given height, timestamp, a hash equal byte for byte to the
argument, and the depths the recorder held on entry, before the two queue
drains ran; `LastBlock` and `AssetAndRuneDepths` return these values; the
row handed to the database carries the encoding of the same snapshot; and the
recorder itself is the entry recorder after `ApplyOutboundQ` then `ApplyFeeQ`. -/
theorem CommitBlock_tracker {Q : Type} (c : Collaborators Q) (fault : ExecFault)
    (s : State Q) (height : Int) (timestamp : Time) (hash : Bytes)
    (hok : (CommitBlock c fault s height timestamp hash).1 = none) :
    (CommitBlock c fault s height timestamp hash).2.lastBlockTrack
      = some { AssetE8DepthPerPool := s.recorder.runningTotals.assetE8DepthPerPool
               RuneE8DepthPerPool := s.recorder.runningTotals.runeE8DepthPerPool
               Height := height
               Timestamp := timestamp
               BlockTimestamp := 0
               Hash := hash } ∧
    LastBlock (CommitBlock c fault s height timestamp hash).2 = some (height, timestamp, hash) ∧
    AssetAndRuneDepths (CommitBlock c fault s height timestamp hash).2
      = some (s.recorder.runningTotals.assetE8DepthPerPool,
              s.recorder.runningTotals.runeE8DepthPerPool, timestamp) ∧
    (CommitBlock c fault s height timestamp hash).2.execCalls
      = s.execCalls ++
        [{ height := height
           timestamp := UnixNano timestamp
           hash := hash
           agg_state := (c.gobEncode
             { AssetE8DepthPerPool := s.recorder.runningTotals.assetE8DepthPerPool
               RuneE8DepthPerPool := s.recorder.runningTotals.runeE8DepthPerPool }).1 }] ∧
    (CommitBlock c fault s height timestamp hash).2.recorder.runningTotals
      = (c.ApplyFeeQ
          (c.ApplyOutboundQ s.recorder.linkedEvents s.recorder.runningTotals height timestamp).1
          (c.ApplyOutboundQ s.recorder.linkedEvents s.recorder.runningTotals height timestamp).2
          height timestamp).2 := by
  have hfault : fault = .ok := (CommitBlock_error_iff c s height timestamp hash fault).1 hok
  subst hfault
  have htrack : (CommitBlock c .ok s height timestamp hash).2.lastBlockTrack
      = some (CommitBlock.track s height timestamp hash) := rfl
  refine ⟨?_, ?_, ?_, ?_, rfl⟩
  · rw [htrack, CommitBlock_track_eq]
  · rw [LastBlock, htrack, CommitBlock_track_eq]; rfl
  · rw [AssetAndRuneDepths, htrack, CommitBlock_track_eq]; rfl
  · rw [CommitBlock_execCalls]
    simp [CommitBlock.row, CommitBlock_track_eq]

/-- C3, at a concrete input: the pool holds 1000 rune and an outbound of 10 is
pending; after the commit of height 100 the tracker shows the 1000 rune of the
entry, the recorder the 990 left by the drain. -/
theorem CommitBlock_tracker_witness :
    AssetAndRuneDepths
        (CommitBlock Sample.collaborators .ok Sample.state 100 1600000000000000000 [171]).2
      = some ([("BNB.BNB", 500)], [("BNB.BNB", 1000)], 1600000000000000000) ∧
    (CommitBlock Sample.collaborators .ok Sample.state 100 1600000000000000000
        [171]).2.recorder.runningTotals.runeE8DepthPerPool = [("BNB.BNB", 990)] :=
  ⟨(CommitBlock_tracker Sample.collaborators .ok Sample.state 100 1600000000000000000 [171]
      rfl).2.2.1, by decide⟩

/-! ## Encoder failure -/

/-- C9. When the gob encoder fails and the database write succeeds,
`CommitBlock` returns no error, calls `DBExec` exactly once, with the given
height, the timestamp in nanoseconds, the hash and whatever the encoder left in
the buffer; the table takes that row under insert-or-ignore, so a free height
gets it appended; the tracker is replaced with the given height, timestamp and
hash; the failure is logged. -/
theorem CommitBlock_encode_failure {Q : Type} (c : Collaborators Q) (s : State Q)
    (height : Int) (timestamp : Time) (hash : Bytes)
    (henc : (c.gobEncode
      { AssetE8DepthPerPool := s.recorder.runningTotals.assetE8DepthPerPool
        RuneE8DepthPerPool := s.recorder.runningTotals.runeE8DepthPerPool }).2 = true) :
    (CommitBlock c .ok s height timestamp hash).1 = none ∧
    (CommitBlock c .ok s height timestamp hash).2.execCalls
      = s.execCalls ++
        [{ height := height
           timestamp := UnixNano timestamp
           hash := hash
           agg_state := (c.gobEncode
             { AssetE8DepthPerPool := s.recorder.runningTotals.assetE8DepthPerPool
               RuneE8DepthPerPool := s.recorder.runningTotals.runeE8DepthPerPool }).1 }] ∧
    (rowsAt s.block_log height = [] →
      (CommitBlock c .ok s height timestamp hash).2.block_log
        = s.block_log ++
          [{ height := height
             timestamp := UnixNano timestamp
             hash := hash
             agg_state := (c.gobEncode
               { AssetE8DepthPerPool := s.recorder.runningTotals.assetE8DepthPerPool
                 RuneE8DepthPerPool := s.recorder.runningTotals.runeE8DepthPerPool }).1 }]) ∧
    (rowsAt s.block_log height ≠ [] →
      (CommitBlock c .ok s height timestamp hash).2.block_log = s.block_log) ∧
    LastBlock (CommitBlock c .ok s height timestamp hash).2 = some (height, timestamp, hash) ∧
    LogEntry.aggregationStateOmitted ∈ (CommitBlock c .ok s height timestamp hash).2.log := by
  have hrow : CommitBlock.row c s height timestamp hash
      = { height := height
          timestamp := UnixNano timestamp
          hash := hash
          agg_state := (c.gobEncode
            { AssetE8DepthPerPool := s.recorder.runningTotals.assetE8DepthPerPool
              RuneE8DepthPerPool := s.recorder.runningTotals.runeE8DepthPerPool }).1 } := by
    simp [CommitBlock.row, CommitBlock_track_eq]
  have henc2 : (c.gobEncode (CommitBlock.track s height timestamp hash).toaggTrack).2 = true := by
    rw [CommitBlock_track_eq]; exact henc
  refine ⟨rfl, ?_, ?_, ?_, ?_, ?_⟩
  · rw [CommitBlock_execCalls, hrow]
  · intro hfree
    have hnot : (CommitBlock.row c s height timestamp hash).height ∉ s.block_log.map Row.height :=
      (rowsAt_eq_nil_iff s.block_log height).1 hfree
    rw [CommitBlock_ok_block_log, insertOrIgnore_free _ _ hnot, hrow]
  · intro htaken
    have hmem : (CommitBlock.row c s height timestamp hash).height ∈ s.block_log.map Row.height := by
      by_contra hcon
      exact htaken ((rowsAt_eq_nil_iff s.block_log height).2 hcon)
    rw [CommitBlock_ok_block_log, insertOrIgnore_taken _ _ hmem]
  · rw [LastBlock, CommitBlock_ok_tracker, CommitBlock_track_eq]; rfl
  · have : (CommitBlock c .ok s height timestamp hash).2.log
        = if (insertOrIgnore s.block_log (CommitBlock.row c s height timestamp hash)).2 = 0
          then (s.log ++ [LogEntry.aggregationStateOmitted]) ++ [LogEntry.alreadyCommitted height]
          else s.log ++ [LogEntry.aggregationStateOmitted] := by
      simp [CommitBlock, DBExec, henc2]
    rw [this]
    split <;> simp

/-- C9, at a concrete input: the encoder fails having written nothing; the
row of height 100 is stored with an empty aggregation state, and the tracker
is at height 100. -/
theorem CommitBlock_encode_failure_witness :
    (CommitBlock Sample.failingEncoder .ok Sample.state 100 1600000000000000000 [171]).2.block_log
      = [{ height := 100, timestamp := 1600000000000000000, hash := [171], agg_state := [] }] ∧
    LastBlock (CommitBlock Sample.failingEncoder .ok Sample.state 100 1600000000000000000 [171]).2
      = some (100, 1600000000000000000, [171]) :=
  ⟨(CommitBlock_encode_failure Sample.failingEncoder Sample.state 100 1600000000000000000 [171]
      rfl).2.2.1 rfl,
   (CommitBlock_encode_failure Sample.failingEncoder Sample.state 100 1600000000000000000 [171]
      rfl).2.2.2.2.1⟩

/-! ## Lemmas on the latest row -/

theorem foldl_keepHigher_some (l : List Row) (b : Row) :
    ∃ r, l.foldl keepHigher (some b) = some r := by
  induction l generalizing b with
  | nil => exact ⟨b, rfl⟩
  | cons x tl ih =>
    rw [List.foldl_cons]
    by_cases hx : b.height < x.height
    · simpa [keepHigher, hx] using ih x
    · simpa [keepHigher, hx] using ih b

theorem latest_eq_none_iff (tbl : List Row) : latest tbl = none ↔ tbl = [] := by
  cases tbl with
  | nil => simp [latest]
  | cons x tl =>
    obtain ⟨r, hr⟩ := foldl_keepHigher_some tl x
    simp [latest, List.foldl_cons, keepHigher, hr]

theorem foldl_keepHigher_of_le (l : List Row) (r : Row) (hle : ∀ x ∈ l, x.height ≤ r.height) :
    l.foldl keepHigher (some r) = some r := by
  induction l with
  | nil => rfl
  | cons x tl ih =>
    have hx : ¬ r.height < x.height := not_lt.2 (hle x (List.mem_cons_self _ _))
    rw [List.foldl_cons]
    simpa [keepHigher, hx] using ih (fun y hy => hle y (List.mem_cons_of_mem _ hy))

theorem foldl_keepHigher_max (l : List Row) (r : Row) (acc : Option Row) (hmem : r ∈ l)
    (hlt : ∀ x ∈ l, x ≠ r → x.height < r.height)
    (hacc : ∀ b, acc = some b → b.height < r.height) :
    l.foldl keepHigher acc = some r := by
  induction l generalizing acc with
  | nil => cases hmem
  | cons x tl ih =>
    rw [List.foldl_cons]
    have htl : ∀ y ∈ tl, y ≠ r → y.height < r.height :=
      fun y hy => hlt y (List.mem_cons_of_mem _ hy)
    by_cases hxr : x = r
    · subst hxr
      have hstep : keepHigher acc x = some x := by
        cases acc with
        | none => rfl
        | some b => simp [keepHigher, hacc b rfl]
      rw [hstep]
      apply foldl_keepHigher_of_le
      intro y hy
      by_cases hyx : y = x
      · rw [hyx]
      · exact le_of_lt (htl y hy hyx)
    · have hx : x.height < r.height := hlt x (List.mem_cons_self _ _) hxr
      have hmem2 : r ∈ tl := by
        rcases List.mem_cons.1 hmem with h | h
        · exact absurd h.symm hxr
        · exact h
      apply ih _ hmem2 htl
      intro b hb
      cases acc with
      | none =>
        simp only [keepHigher, Option.some.injEq] at hb
        rw [← hb]; exact hx
      | some b0 =>
        by_cases hb0 : b0.height < x.height
        · simp only [keepHigher, hb0, if_true, Option.some.injEq] at hb
          rw [← hb]; exact hx
        · simp only [keepHigher, hb0, if_false, Option.some.injEq] at hb
          rw [← hb]; exact hacc b0 rfl

theorem latest_of_max (tbl : List Row) (r : Row) (hkey : Keyed tbl) (hmem : r ∈ tbl)
    (hmax : ∀ x ∈ tbl, x.height ≤ r.height) : latest tbl = some r := by
  apply foldl_keepHigher_max tbl r none hmem
  · intro x hx hne
    rcases lt_or_eq_of_le (hmax x hx) with h | h
    · exact h
    · exact absurd (List.inj_on_of_nodup_map hkey hx hmem h) hne
  · intro b hb; cases hb

/-! ## Lemmas on start-up -/

theorem wrap64_of_isInt64 (x : Int) (hx : IsInt64 x) : wrap64 x = x := by
  unfold IsInt64 minInt64 maxInt64 at hx
  unfold wrap64
  omega

theorem Unix_UnixNano (t : Time) (ht : IsInt64 t) : Unix 0 (UnixNano t) = t := by
  simp [Unix, UnixNano, wrap64_of_isInt64 t ht]

theorem Setup_apply_nil (target : DepthMap) : Setup.apply target [] = target := rfl

theorem Setup_of_track {Q : Type} (c : Collaborators Q) (s : State Q) (next : Option Row)
    (track : blockTrack) (htrack : Setup.track c next = some track) :
    (Setup c (.rows next false) s).1 = (track.Height, track.Timestamp, track.Hash, none) ∧
    (Setup c (.rows next false) s).2.lastBlockTrack = some track ∧
    (Setup c (.rows next false) s).2.block_log = s.block_log := by
  simp [Setup, htrack]

theorem SetupBlockchain_of_track {Q : Type} (c : Collaborators Q) (s : State Q)
    (next : Option Row) (track : blockTrack) (htrack : Setup.track c next = some track) :
    (SetupBlockchain c .ok (.rows next false) s).cursor
      = some (if track.Height = 0 then 0 else wrap64 (track.Height + 1)) := by
  by_cases h0 : track.Height = 0
  · simp [SetupBlockchain, Setup, htrack, h0, Startup.cursor]
  · simp [SetupBlockchain, Setup, htrack, h0, Startup.cursor]

/-! ## Recovery -/

/-- C4, as stated, fails at height 0. The commit of height 0 on the empty
table stores a row whose snapshot decodes, that row is the latest one, and the
start-up of a fresh process on this table resumes at cursor 0, not at 1. -/
theorem resume_cursor_latest_height_zero :
    latest (CommitBlock Sample.collaborators .ok Sample.state 0 1600000000000000000
        [171]).2.block_log
      = some { height := 0, timestamp := 1600000000000000000, hash := [171],
               agg_state := [1, 7, 66, 78, 66, 46, 66, 78, 66, 0, 0, 0, 0, 0, 0, 1, 244,
                             1, 7, 66, 78, 66, 46, 66, 78, 66, 0, 0, 0, 0, 0, 0, 3, 232] } ∧
    Sample.collaborators.gobDecode
        [1, 7, 66, 78, 66, 46, 66, 78, 66, 0, 0, 0, 0, 0, 0, 1, 244,
         1, 7, 66, 78, 66, 46, 66, 78, 66, 0, 0, 0, 0, 0, 0, 3, 232]
        blockTrack.zero.toaggTrack
      = some { AssetE8DepthPerPool := [("BNB.BNB", 500)]
               RuneE8DepthPerPool := [("BNB.BNB", 1000)] } ∧
    (SetupBlockchain Sample.collaborators .ok
        (DBQuery .ok (CommitBlock Sample.collaborators .ok Sample.state 0 1600000000000000000
          [171]).2.block_log)
        (Sample.fresh (CommitBlock Sample.collaborators .ok Sample.state 0 1600000000000000000
          [171]).2.block_log)).cursor = some 0 ∧
    (SetupBlockchain Sample.collaborators .ok
        (DBQuery .ok (CommitBlock Sample.collaborators .ok Sample.state 0 1600000000000000000
          [171]).2.block_log)
        (Sample.fresh (CommitBlock Sample.collaborators .ok Sample.state 0 1600000000000000000
          [171]).2.block_log)).cursor ≠ some (0 + 1) := by
  refine ⟨by decide, by decide, by decide, by decide⟩

/-- C4, amended. On a table keyed by height whose row of greatest height `h`
has a snapshot that decodes, start-up (with a working client and query)
launches the follower with cursor `h + 1` when `h` is neither 0 nor the
largest `int64`; with cursor 0 when `h` is 0; the increment wraps to the
smallest `int64` at the largest one. -/
theorem SetupBlockchain_resume_cursor {Q : Type} (c : Collaborators Q) (s : State Q)
    (r : Row) (a : aggTrack)
    (hkey : Keyed s.block_log) (hmem : r ∈ s.block_log)
    (hmax : ∀ x ∈ s.block_log, x.height ≤ r.height)
    (hrange : IsInt64 r.height)
    (hdec : c.gobDecode r.agg_state blockTrack.zero.toaggTrack = some a) :
    (SetupBlockchain c .ok (DBQuery .ok s.block_log) s).cursor
      = some (if r.height = 0 then 0
              else if r.height = maxInt64 then minInt64
              else r.height + 1) := by
  have hlatest : latest s.block_log = some r := latest_of_max _ _ hkey hmem hmax
  have htrack : Setup.track c (some r)
      = some { toaggTrack := a, Height := r.height, Timestamp := Unix 0 r.timestamp,
               BlockTimestamp := 0, Hash := r.hash } := by
    simp [Setup.track, hdec]
  have hq : DBQuery .ok s.block_log = .rows (some r) false := by
    simp [DBQuery, hlatest]
  rw [hq, SetupBlockchain_of_track c s (some r) _ htrack]
  by_cases h0 : r.height = 0
  · simp [h0]
  · by_cases hmaxi : r.height = maxInt64
    · simp only [h0, hmaxi, if_false, if_true]
      decide
    · simp only [h0, hmaxi, if_false]
      congr 1
      apply wrap64_of_isInt64
      unfold IsInt64 minInt64 maxInt64 at *
      omega

/-- C4, at a concrete input: the latest checkpoint is at height 100 and the
start-up of a fresh process resumes at cursor 101. -/
theorem SetupBlockchain_resume_cursor_witness :
    (SetupBlockchain Sample.collaborators .ok
        (DBQuery .ok (CommitBlock Sample.collaborators .ok Sample.state 100 1600000000000000000
          [171]).2.block_log)
        (Sample.fresh (CommitBlock Sample.collaborators .ok Sample.state 100 1600000000000000000
          [171]).2.block_log)).cursor = some 101 :=
  SetupBlockchain_resume_cursor Sample.collaborators
    (Sample.fresh (CommitBlock Sample.collaborators .ok Sample.state 100 1600000000000000000
      [171]).2.block_log)
    { height := 100, timestamp := 1600000000000000000, hash := [171],
      agg_state := [1, 7, 66, 78, 66, 46, 66, 78, 66, 0, 0, 0, 0, 0, 0, 1, 244,
                    1, 7, 66, 78, 66, 46, 66, 78, 66, 0, 0, 0, 0, 0, 0, 3, 232] }
    { AssetE8DepthPerPool := [("BNB.BNB", 500)], RuneE8DepthPerPool := [("BNB.BNB", 1000)] }
    (by decide) (by decide) (by decide) (by decide) (by decide)

/-- C5. On a query that succeeds and delivers no row, which is what the empty
table gives, `Setup` returns height 0, the zero time, the nil hash and no
error; the tracker is the genesis value (height 0, no pool in either map); the
recorder is as it was; and `SetupBlockchain` launches the follower with
cursor 0. -/
theorem Setup_empty_store {Q : Type} (c : Collaborators Q) (s : State Q) :
    DBQuery .ok [] = .rows none false ∧
    (∀ tbl : List Row, DBQuery .ok tbl = .rows none false → tbl = []) ∧
    (Setup c (.rows none false) s).1 = (0, zeroTime, [], none) ∧
    (Setup c (.rows none false) s).2.lastBlockTrack
      = some { AssetE8DepthPerPool := [], RuneE8DepthPerPool := [],
               Height := 0, Timestamp := zeroTime, BlockTimestamp := 0, Hash := [] } ∧
    (Setup c (.rows none false) s).2.recorder = s.recorder ∧
    (Setup c (.rows none false) s).2.block_log = s.block_log ∧
    (SetupBlockchain c .ok (.rows none false) s).cursor = some 0 := by
  refine ⟨rfl, ?_, rfl, rfl, rfl, rfl, rfl⟩
  intro tbl htbl
  have : latest tbl = none := by
    simpa [DBQuery] using htbl
  exact (latest_eq_none_iff tbl).1 this

/-- C8. When a latest row is delivered and its aggregation state fails to
decode, `Setup` returns height 0, the zero time, the nil hash and the
malformed-state error, and leaves the whole state (tracker and recorder
included) exactly as it was; `SetupBlockchain` then exits fatally and no
follower is launched, whatever the client set-up did. -/
theorem Setup_malformed_latest {Q : Type} (c : Collaborators Q) (s : State Q) (r : Row)
    (rowsErr : Bool) (client : ClientSetup)
    (hdec : c.gobDecode r.agg_state blockTrack.zero.toaggTrack = none) :
    Setup c (.rows (some r) rowsErr) s
      = ((0, zeroTime, [], some Error.malformedAggregationState), s) ∧
    SetupBlockchain c .ok (.rows (some r) rowsErr) s
      = .exit (Fatal.rdbUnavailable Error.malformedAggregationState) s ∧
    (SetupBlockchain c client (.rows (some r) rowsErr) s).cursor = none ∧
    (SetupBlockchain c client (.rows (some r) rowsErr) s).state = s := by
  have htrack : Setup.track c (some r) = none := by simp [Setup.track, hdec]
  have hsetup : Setup c (.rows (some r) rowsErr) s
      = ((0, zeroTime, [], some Error.malformedAggregationState), s) := by
    simp [Setup, htrack]
  have hstart : SetupBlockchain c .ok (.rows (some r) rowsErr) s
      = .exit (Fatal.rdbUnavailable Error.malformedAggregationState) s := by
    simp [SetupBlockchain, hsetup]
  refine ⟨hsetup, hstart, ?_, ?_⟩
  · cases client
    · rfl
    · rfl
    · rfl
    · rw [hstart]; rfl
  · cases client
    · rfl
    · rfl
    · rfl
    · rw [hstart]; rfl

/-- C8, at a concrete input: the latest row was written while the encoder
failed, so its aggregation state is empty and does not decode; the start-up of
a process that tracks height 100 exits and leaves that tracker in place. -/
theorem Setup_malformed_latest_witness :
    (SetupBlockchain Sample.collaborators .ok
        (.rows (some { height := 101, timestamp := 1600000000000000009, hash := [172],
                       agg_state := [] }) false)
        (CommitBlock Sample.collaborators .ok Sample.state 100 1600000000000000000
          [171]).2).cursor = none ∧
    LastBlock (SetupBlockchain Sample.collaborators .ok
        (.rows (some { height := 101, timestamp := 1600000000000000009, hash := [172],
                       agg_state := [] }) false)
        (CommitBlock Sample.collaborators .ok Sample.state 100 1600000000000000000
          [171]).2).state = some (100, 1600000000000000000, [171]) := by
  have h := Setup_malformed_latest Sample.collaborators
    (CommitBlock Sample.collaborators .ok Sample.state 100 1600000000000000000 [171]).2
    { height := 101, timestamp := 1600000000000000009, hash := [172], agg_state := [] }
    false .ok (by decide)
  refine ⟨h.2.2.1, ?_⟩
  rw [h.2.2.2]
  decide

/-! ## Commit, then recover -/

theorem insertOrIgnore_mem (tbl : List Row) (r x : Row) (hx : x ∈ (insertOrIgnore tbl r).1) :
    x ∈ tbl ∨ x = r := by
  unfold insertOrIgnore at hx
  split at hx
  · exact Or.inl hx
  · simpa using hx

theorem CommitBlock_success_table {Q : Type} (c : Collaborators Q) (fault : ExecFault)
    (s s1 : State Q) (height : Int) (timestamp : Time) (hash : Bytes)
    (hcall : CommitBlock c fault s height timestamp hash = (none, s1)) :
    s1.block_log = (insertOrIgnore s.block_log (CommitBlock.row c s height timestamp hash)).1 ∧
    s1.lastBlockTrack = some (CommitBlock.track s height timestamp hash) := by
  have hnone : (CommitBlock c fault s height timestamp hash).1 = none := by rw [hcall]
  have hfault : fault = .ok := (CommitBlock_error_iff c s height timestamp hash fault).1 hnone
  subst hfault
  have hs1 : s1 = (CommitBlock c .ok s height timestamp hash).2 := by rw [hcall]
  subst hs1
  exact ⟨rfl, rfl⟩

theorem commitRun_table {Q : Type} (c : Collaborators Q) (blocks : List (Block Q)) :
    ∀ (h : Int) (s s1 : State Q), commitRun c h blocks s = some s1 →
      Keyed s.block_log → (∀ x ∈ s.block_log, x.height < h) →
      Keyed s1.block_log ∧ ∀ x ∈ s1.block_log, x.height < h + blocks.length := by
  induction blocks with
  | nil =>
    intro h s s1 hrun hkey hbelow
    simp only [commitRun, Option.some.injEq] at hrun
    subst hrun
    exact ⟨hkey, by simpa using hbelow⟩
  | cons b bs ih =>
    intro h s s1 hrun hkey hbelow
    rw [commitRun] at hrun
    generalize hcall : CommitBlock c b.fault (b.entry s) h b.timestamp b.hash = res at hrun
    obtain ⟨err, s2⟩ := res
    cases err with
    | some e => simp at hrun
    | none =>
      simp only at hrun
      have htbl := (CommitBlock_success_table c b.fault (b.entry s) s2 h b.timestamp b.hash hcall).1
      have hentry : (b.entry s).block_log = s.block_log := rfl
      rw [hentry] at htbl
      have hkey2 : Keyed s2.block_log := by
        rw [htbl]; exact insertOrIgnore_keyed _ _ hkey
      have hbelow2 : ∀ x ∈ s2.block_log, x.height < h + 1 := by
        intro x hx
        rw [htbl] at hx
        rcases insertOrIgnore_mem _ _ _ hx with hx1 | hx1
        · have := hbelow x hx1; omega
        · rw [hx1]
          have : (CommitBlock.row c (b.entry s) h b.timestamp b.hash).height = h := rfl
          omega
      obtain ⟨hk, hb⟩ := ih (h + 1) s2 s1 hrun hkey2 hbelow2
      refine ⟨hk, ?_⟩
      intro x hx
      have := hb x hx
      simp only [List.length_cons, Nat.cast_add, Nat.cast_one]
      omega

/-- C6, as stated, fails on the timestamp. Height 1 is committed on the empty
table with the zero time (January 1 of year 1, which no `int64` count of
nanoseconds since 1970 holds): the commit succeeds and its snapshot decodes,
yet the tracker `Setup` restores carries an instant of the year 1754, not the
timestamp passed to `CommitBlock`. -/
theorem recovered_timestamp_zero_time :
    (CommitBlock Sample.collaborators .ok Sample.state 1 zeroTime [171]).1 = none ∧
    LastBlock (CommitBlock Sample.collaborators .ok Sample.state 1 zeroTime [171]).2
      = some (1, zeroTime, [171]) ∧
    DBQuery .ok (CommitBlock Sample.collaborators .ok Sample.state 1 zeroTime [171]).2.block_log
      = .rows (some { height := 1, timestamp := -6795364578871345152, hash := [171],
                      agg_state := [1, 7, 66, 78, 66, 46, 66, 78, 66, 0, 0, 0, 0, 0, 0, 1, 244,
                                    1, 7, 66, 78, 66, 46, 66, 78, 66, 0, 0, 0, 0, 0, 0, 3, 232] })
          false ∧
    (Setup Sample.collaborators
        (DBQuery .ok (CommitBlock Sample.collaborators .ok Sample.state 1 zeroTime
          [171]).2.block_log)
        (Sample.fresh (CommitBlock Sample.collaborators .ok Sample.state 1 zeroTime
          [171]).2.block_log)).2.lastBlockTrack
      = some { AssetE8DepthPerPool := [("BNB.BNB", 500)]
               RuneE8DepthPerPool := [("BNB.BNB", 1000)]
               Height := 1
               Timestamp := -6795364578871345152
               BlockTimestamp := 0
               Hash := [171] } ∧
    zeroTime ≠ -6795364578871345152 := by
  refine ⟨by decide, by decide, by decide, by decide, by decide⟩

/-- C6, amended. Blocks are committed in order at the heights `h0`, `h0 + 1`,
... on a table keyed by height whose rows are all below `h0` (the empty table
with `h0 = 1` is the case of the heights 1..N), every `CommitBlock` returning
no error, and the codec decodes what it encoded for the snapshot taken on
entry to the last call, at height `N`. Then `Setup`, run with a working query
by any process on the resulting table, returns and tracks height `N` with the
hash passed to that last `CommitBlock`, for every timestamp; the tracked depth
maps hold the mappings of that snapshot, which is also the one the committing
process tracks; the tracked timestamp is `time.Unix(0, timestamp.UnixNano())`,
which is the timestamp passed to that last `CommitBlock` whenever an `int64`
count of nanoseconds since the Unix epoch holds it. -/
theorem commit_then_recover {Q : Type} (c : Collaborators Q) (s0 sPrev sN sR : State Q)
    (h0 : Int) (blocks : List (Block Q)) (last : Block Q)
    (hkey : Keyed s0.block_log) (hbelow : ∀ x ∈ s0.block_log, x.height < h0)
    (hprev : commitRun c h0 blocks s0 = some sPrev)
    (hlast : CommitBlock c last.fault (last.entry sPrev) (h0 + blocks.length)
      last.timestamp last.hash = (none, sN))
    (hR : sR.block_log = sN.block_log)
    (hcodec : DecodesEncoded c
      { AssetE8DepthPerPool := (last.entry sPrev).recorder.runningTotals.assetE8DepthPerPool
        RuneE8DepthPerPool := (last.entry sPrev).recorder.runningTotals.runeE8DepthPerPool }) :
    sN.lastBlockTrack
      = some { AssetE8DepthPerPool := (last.entry sPrev).recorder.runningTotals.assetE8DepthPerPool
               RuneE8DepthPerPool := (last.entry sPrev).recorder.runningTotals.runeE8DepthPerPool
               Height := h0 + blocks.length
               Timestamp := last.timestamp
               BlockTimestamp := 0
               Hash := last.hash } ∧
    (Setup c (DBQuery .ok sR.block_log) sR).1
      = (h0 + blocks.length, Unix 0 (UnixNano last.timestamp), last.hash, none) ∧
    (IsInt64 last.timestamp →
      (Setup c (DBQuery .ok sR.block_log) sR).1
        = (h0 + blocks.length, last.timestamp, last.hash, none)) ∧
    ∃ track : blockTrack,
      (Setup c (DBQuery .ok sR.block_log) sR).2.lastBlockTrack = some track ∧
      track.Height = h0 + blocks.length ∧
      track.Timestamp = Unix 0 (UnixNano last.timestamp) ∧
      (IsInt64 last.timestamp → track.Timestamp = last.timestamp) ∧
      track.Hash = last.hash ∧
      SameMapping track.AssetE8DepthPerPool
        (last.entry sPrev).recorder.runningTotals.assetE8DepthPerPool ∧
      SameMapping track.RuneE8DepthPerPool
        (last.entry sPrev).recorder.runningTotals.runeE8DepthPerPool := by
  obtain ⟨hkeyP, hbelowP⟩ := commitRun_table c blocks h0 s0 sPrev hprev hkey hbelow
  obtain ⟨htbl, htrackN⟩ := CommitBlock_success_table c last.fault (last.entry sPrev) sN
    (h0 + blocks.length) last.timestamp last.hash hlast
  have hentry : (last.entry sPrev).block_log = sPrev.block_log := rfl
  rw [hentry] at htbl
  have hrowH : (CommitBlock.row c (last.entry sPrev) (h0 + blocks.length) last.timestamp
      last.hash).height = h0 + blocks.length := rfl
  have hfree : (CommitBlock.row c (last.entry sPrev) (h0 + blocks.length) last.timestamp
      last.hash).height ∉ sPrev.block_log.map Row.height := by
    rw [hrowH]
    intro hmem
    obtain ⟨x, hx, hxh⟩ := List.mem_map.1 hmem
    have := hbelowP x hx
    omega
  have hkeyN : Keyed sN.block_log := by
    rw [htbl]; exact insertOrIgnore_keyed _ _ hkeyP
  rw [insertOrIgnore_free _ _ hfree] at htbl
  have hmemN : CommitBlock.row c (last.entry sPrev) (h0 + blocks.length) last.timestamp last.hash
      ∈ sN.block_log := by
    rw [htbl]; simp
  have hmaxN : ∀ x ∈ sN.block_log, x.height
      ≤ (CommitBlock.row c (last.entry sPrev) (h0 + blocks.length) last.timestamp
          last.hash).height := by
    intro x hx
    rw [htbl] at hx
    rcases List.mem_append.1 hx with hx1 | hx1
    · have := hbelowP x hx1
      rw [hrowH]; omega
    · simp only [List.mem_singleton] at hx1
      rw [hx1]
  have hlatest := latest_of_max _ _ hkeyN hmemN hmaxN
  obtain ⟨a, hdec, hasset, hrune⟩ := hcodec
  have hagg : (CommitBlock.row c (last.entry sPrev) (h0 + blocks.length) last.timestamp
      last.hash).agg_state
      = (c.gobEncode
          { AssetE8DepthPerPool := (last.entry sPrev).recorder.runningTotals.assetE8DepthPerPool
            RuneE8DepthPerPool :=
              (last.entry sPrev).recorder.runningTotals.runeE8DepthPerPool }).1 := by
    simp [CommitBlock.row, CommitBlock_track_eq]
  have htrack : Setup.track c (some (CommitBlock.row c (last.entry sPrev) (h0 + blocks.length)
      last.timestamp last.hash))
      = some { toaggTrack := a, Height := h0 + blocks.length,
               Timestamp := Unix 0 (UnixNano last.timestamp),
               BlockTimestamp := 0, Hash := last.hash } := by
    simp only [Setup.track, hagg, hdec]
    rfl
  have hq : DBQuery .ok sR.block_log
      = .rows (some (CommitBlock.row c (last.entry sPrev) (h0 + blocks.length) last.timestamp
          last.hash)) false := by
    simp [DBQuery, hR, hlatest]
  obtain ⟨hret, htracked, _⟩ := Setup_of_track c sR _ _ htrack
  refine ⟨?_, ?_, ?_, Exists.intro
    (blockTrack.mk a (h0 + blocks.length) (Unix 0 (UnixNano last.timestamp)) 0 last.hash)
    ⟨?_, rfl, rfl, ?_, rfl, hasset, hrune⟩⟩
  · rw [htrackN, CommitBlock_track_eq]
  · rw [hq, hret]
  · intro hts
    rw [hq, hret]
    simp only [Unix_UnixNano last.timestamp hts]
  · rw [hq, htracked]
  · intro hts
    exact Unix_UnixNano last.timestamp hts

/-- C6, at a concrete input: height 100 is committed on the empty table while
the pool `BNB.BNB` holds 500 asset and 1000 rune; `Setup` in a fresh process
tracks height 100 with that snapshot. -/
theorem commit_then_recover_witness :
    (Setup Sample.collaborators
        (DBQuery .ok (CommitBlock Sample.collaborators .ok Sample.state 100 1600000000000000000
          [171]).2.block_log)
        (Sample.fresh (CommitBlock Sample.collaborators .ok Sample.state 100 1600000000000000000
          [171]).2.block_log)).1 = (100, 1600000000000000000, [171], none) ∧
    AssetAndRuneDepths (Setup Sample.collaborators
        (DBQuery .ok (CommitBlock Sample.collaborators .ok Sample.state 100 1600000000000000000
          [171]).2.block_log)
        (Sample.fresh (CommitBlock Sample.collaborators .ok Sample.state 100 1600000000000000000
          [171]).2.block_log)).2
      = some ([("BNB.BNB", 500)], [("BNB.BNB", 1000)], 1600000000000000000) := by
  have h := commit_then_recover Sample.collaborators Sample.state Sample.state
    (CommitBlock Sample.collaborators .ok Sample.state 100 1600000000000000000 [171]).2
    (Sample.fresh (CommitBlock Sample.collaborators .ok Sample.state 100 1600000000000000000
      [171]).2.block_log)
    100 [] (Sample.block 1600000000000000000 [171])
    (by decide) (by decide) rfl rfl rfl
    ⟨{ AssetE8DepthPerPool := [("BNB.BNB", 500)], RuneE8DepthPerPool := [("BNB.BNB", 1000)] },
      by decide, fun _ => rfl, fun _ => rfl⟩
  exact ⟨h.2.2.1 (by decide), by decide⟩

/-! ## The in-sync predicate -/

theorem subMono_eq_sub (t u : Int) (ht : IsInt64 t) (hu : IsInt64 u) :
    subMono t u
      = if maxInt64 < t - u then maxInt64 else if t - u < minInt64 then minInt64 else t - u := by
  unfold IsInt64 minInt64 maxInt64 at ht hu
  by_cases hA : maxInt64 < t - u
  · unfold maxInt64 at hA
    have hw : wrap64 (t - u) = t - u - 2 ^ 64 := by unfold wrap64; omega
    have h1 : wrap64 (t - u) < 0 ∧ t > u := by rw [hw]; constructor <;> omega
    have hA2 : maxInt64 < t - u := by unfold maxInt64; exact hA
    rw [subMono, if_pos h1, if_pos hA2]
  · by_cases hB : t - u < minInt64
    · unfold minInt64 at hB
      have hw : wrap64 (t - u) = t - u + 2 ^ 64 := by unfold wrap64; omega
      have h1 : ¬ (wrap64 (t - u) < 0 ∧ t > u) := by rw [hw]; intro h; omega
      have h2 : wrap64 (t - u) > 0 ∧ t < u := by rw [hw]; constructor <;> omega
      have hB2 : t - u < minInt64 := by unfold minInt64; exact hB
      rw [subMono, if_neg h1, if_pos h2, if_neg hA, if_pos hB2]
    · have hA2 := hA
      have hB2 := hB
      unfold maxInt64 at hA2
      unfold minInt64 at hB2
      have hw : wrap64 (t - u) = t - u := by unfold wrap64; omega
      have h1 : ¬ (wrap64 (t - u) < 0 ∧ t > u) := by rw [hw]; intro h; omega
      have h2 : ¬ (wrap64 (t - u) > 0 ∧ t < u) := by rw [hw]; intro h; omega
      rw [subMono, if_neg h1, if_neg h2, if_neg hA, if_neg hB, hw]

/-- C10, as stated, fails for a large backoff. With `last_chain_backoff` set
to 1281024 hours (a duration an `int64` holds) the doubled backoff overflows
to a negative duration: no time has passed since the last no-data response,
which is less than twice the backoff, yet `InSync` returns false. -/
theorem InSync_doubled_backoff_overflows :
    IsInt64 (1281024 * 3600 * Second) ∧
    Duration.WithDefault (1281024 * 3600 * Second) (7 * Second) = 1281024 * 3600 * Second ∧
    (5000 : Int) - 5000 < 2 * Duration.WithDefault (1281024 * 3600 * Second) (7 * Second) ∧
    InSync (1281024 * 3600 * Second) (some 5000) 5000 = some false := by
  refine ⟨by decide, by decide, by decide, by decide⟩

/-- C10, amended. Once a last-no-data reading `t` of the monotonic clock has
been recorded, and for a configured backoff `b` strictly between `-2 ^ 62` and
`2 ^ 62` nanoseconds (so that doubling it stays within `int64`), `InSync` at the
reading `now` returns true exactly when `now - t < 2 * B` and false otherwise,
where `B` is `b` when `b` is not zero and 7 seconds when it is. With the default
of 7 seconds it is therefore true up to 3 seconds after a no-data response and
false once more than 14 seconds have passed. -/
theorem InSync_iff (b : Int) (t now : Int) (ht : IsInt64 t) (hnow : IsInt64 now)
    (hlo : -(2 ^ 62) < b) (hhi : b < 2 ^ 62) :
    Duration.WithDefault b (7 * Second) = (if b = 0 then 7000000000 else b) ∧
    (InSync b (some t) now = some true ↔ now - t < 2 * Duration.WithDefault b (7 * Second)) ∧
    (InSync b (some t) now = some false ↔ ¬ now - t < 2 * Duration.WithDefault b (7 * Second)) ∧
    (b = 0 ∨ b = 7 * Second →
      (now - t ≤ 3 * Second → InSync b (some t) now = some true) ∧
      (14 * Second < now - t → InSync b (some t) now = some false)) := by
  have hB : Duration.WithDefault b (7 * Second) = (if b = 0 then 7000000000 else b) := by
    unfold Duration.WithDefault Second
    split_ifs <;> rfl
  have hBlo : -(2 ^ 62) < Duration.WithDefault b (7 * Second) := by
    rw [hB]; split_ifs <;> omega
  have hBhi : Duration.WithDefault b (7 * Second) < 2 ^ 62 := by
    rw [hB]; split_ifs <;> omega
  have hdouble : wrap64 (2 * Duration.WithDefault b (7 * Second))
      = 2 * Duration.WithDefault b (7 * Second) := by
    apply wrap64_of_isInt64
    unfold IsInt64 minInt64 maxInt64
    omega
  have hsince : (Since now t < 2 * Duration.WithDefault b (7 * Second))
      ↔ now - t < 2 * Duration.WithDefault b (7 * Second) := by
    unfold Since
    rw [subMono_eq_sub now t hnow ht]
    unfold IsInt64 minInt64 maxInt64 at ht hnow
    unfold minInt64 maxInt64
    split_ifs <;> constructor <;> intro h <;> omega
  have htrue : InSync b (some t) now = some true
      ↔ now - t < 2 * Duration.WithDefault b (7 * Second) := by
    simp only [InSync, hdouble, Option.some.injEq, decide_eq_true_eq]
    exact hsince
  have hfalse : InSync b (some t) now = some false
      ↔ ¬ now - t < 2 * Duration.WithDefault b (7 * Second) := by
    simp only [InSync, hdouble, Option.some.injEq, decide_eq_false_iff_not]
    exact not_congr hsince
  refine ⟨hB, htrue, hfalse, ?_⟩
  intro hb
  have hB7 : Duration.WithDefault b (7 * Second) = 7000000000 := by
    rw [hB]
    rcases hb with h | h
    · simp [h]
    · unfold Second at h; rw [h]; decide
  refine ⟨fun h3 => htrue.2 ?_, fun h14 => hfalse.2 ?_⟩
  · rw [hB7]; unfold Second at h3; omega
  · rw [hB7]; unfold Second at h14; omega

/-- C10, at concrete inputs, backoff left at its default of 7 seconds: a
no-data response at 5 s and one at 8 s; `InSync` is true at 8 s on the first
reading, true 14 s minus one nanosecond after the second, and false from 14 s
after it. -/
theorem InSync_iff_witness :
    InSync 0 (some 5000000000) 8000000000 = some true ∧
    InSync 0 (some 8000000000) 21999999999 = some true ∧
    InSync 0 (some 8000000000) 22000000000 = some false ∧
    InSync 0 (some 8000000000) 22000000001 = some false :=
  ⟨((InSync_iff 0 5000000000 8000000000 (by decide) (by decide) (by decide) (by decide)).2.2.2
      (Or.inl rfl)).1 (by decide),
   (InSync_iff 0 8000000000 21999999999 (by decide) (by decide) (by decide)
      (by decide)).2.1.2 (by decide),
   (InSync_iff 0 8000000000 22000000000 (by decide) (by decide) (by decide)
      (by decide)).2.2.1.2 (by decide),
   ((InSync_iff 0 8000000000 22000000001 (by decide) (by decide) (by decide) (by decide)).2.2.2
      (Or.inl rfl)).2 (by decide)⟩

/-! ## The follower loop -/

theorem followIteration_noData (t : Turn) (f : Follower)
    (herr : (t.Follow f.offset).2 = some FollowError.ErrNoData) :
    followIteration t f
      = { offset := (t.Follow f.offset).1
          lastNoData := some t.now
          followCalls := f.followCalls ++ [f.offset]
          log := f.log } := by
  simp only [followIteration, herr]

theorem followIteration_retry_branch (t : Turn) (f : Follower)
    (herr : (t.Follow f.offset).2 ≠ some FollowError.ErrNoData) :
    followIteration t f
      = { offset := (t.Follow f.offset).1
          lastNoData := f.lastNoData
          followCalls := f.followCalls ++ [f.offset]
          log := f.log ++ [LogEntry.followBlockchainRetry (t.Follow f.offset).2] } := by
  rcases h : (t.Follow f.offset).2 with _ | e
  · simp only [followIteration, h]
  · cases e with
    | ErrNoData => exact absurd h herr
    | other => simp only [followIteration, h]

theorem followIteration_followCalls (t : Turn) (f : Follower) :
    (followIteration t f).followCalls = f.followCalls ++ [f.offset] := by
  by_cases herr : (t.Follow f.offset).2 = some FollowError.ErrNoData
  · rw [followIteration_noData t f herr]
  · rw [followIteration_retry_branch t f herr]

theorem followIteration_offset (t : Turn) (f : Follower) :
    (followIteration t f).offset = (t.Follow f.offset).1 := by
  by_cases herr : (t.Follow f.offset).2 = some FollowError.ErrNoData
  · rw [followIteration_noData t f herr]
  · rw [followIteration_retry_branch t f herr]

/-- C11, as stated, fails when the failed call had made progress. The cursor
is 100; `client.Follow` delivers three blocks and then returns with an error
that is not the no-data one; the next iteration calls `client.Follow` with the
cursor 103 it returned, not with 100. The last-no-data reading stays unset. -/
theorem follower_retry_moves_cursor :
    (Sample.brokenAfterThree.Follow 100).2 = some FollowError.other ∧
    (followLoop [Sample.brokenAfterThree, Sample.brokenAfterThree]
        { offset := 100, lastNoData := none, followCalls := [], log := [] }).followCalls
      = [100, 103] ∧
    (followLoop [Sample.brokenAfterThree, Sample.brokenAfterThree]
        { offset := 100, lastNoData := none, followCalls := [], log := [] }).followCalls
      ≠ [100, 100] ∧
    (followLoop [Sample.brokenAfterThree, Sample.brokenAfterThree]
        { offset := 100, lastNoData := none, followCalls := [], log := [] }).lastNoData
      = none := by
  refine ⟨by decide, by decide, by decide, by decide⟩

/-- C11, amended. In every iteration of the follower loop `client.Follow` is
called with the current cursor, and the next iteration calls it with the
height that call returned, whatever its error: the same cursor when the failed
call returned the cursor it was given, another one otherwise. When the error
is not the no-data one the last-no-data reading is left as it was and the
retry is logged; on the no-data error the reading is set to the current time
and nothing is logged. -/
theorem follower_next_cursor (t next : Turn) (f : Follower) :
    (followIteration t f).followCalls = f.followCalls ++ [f.offset] ∧
    (followIteration next (followIteration t f)).followCalls
      = f.followCalls ++ [f.offset, (t.Follow f.offset).1] ∧
    ((t.Follow f.offset).1 = f.offset →
      (followIteration next (followIteration t f)).followCalls
        = f.followCalls ++ [f.offset, f.offset]) ∧
    ((t.Follow f.offset).2 ≠ some FollowError.ErrNoData →
      (followIteration t f).lastNoData = f.lastNoData ∧
      (followIteration t f).log
        = f.log ++ [LogEntry.followBlockchainRetry (t.Follow f.offset).2]) ∧
    ((t.Follow f.offset).2 = some FollowError.ErrNoData →
      (followIteration t f).lastNoData = some t.now ∧
      (followIteration t f).log = f.log) := by
  have hcalls : (followIteration next (followIteration t f)).followCalls
      = f.followCalls ++ [f.offset, (t.Follow f.offset).1] := by
    rw [followIteration_followCalls, followIteration_followCalls, followIteration_offset]
    simp
  refine ⟨followIteration_followCalls t f, hcalls, ?_, ?_, ?_⟩
  · intro hsame
    rw [hcalls, hsame]
  · intro hne
    rw [followIteration_retry_branch t f hne]
    exact ⟨rfl, rfl⟩
  · intro hnodata
    rw [followIteration_noData t f hnodata]
    exact ⟨rfl, rfl⟩

/-! ## The read queries -/

theorem GetTotalRuneStakes_query_fails (db : SumQuery → SumRows) (pool : String) (blockTimeStamp : Int)
    (err : String) (hdb : db (GetTotalRuneStakes.query pool blockTimeStamp) = .error err) :
    GetTotalRuneStakes db pool blockTimeStamp = ((0, some err), none) := by
  unfold GetTotalRuneStakes
  rw [hdb]

theorem GetTotalRuneStakes_scanned (db : SumQuery → SumRows) (pool : String) (blockTimeStamp : Int)
    (v : Int) (hv : IsInt64 v)
    (hdb : db (GetTotalRuneStakes.query pool blockTimeStamp) = .rows (some (some v))) :
    GetTotalRuneStakes db pool blockTimeStamp = ((v, none), some v) := by
  unfold GetTotalRuneStakes
  rw [hdb]
  simp only [scanInto, hv, if_true]

theorem GetTotalRunUnstakes_query_fails (db : SumQuery → SumRows) (pool : String) (blockTimeStamp : Int)
    (err : String) (hdb : db (GetTotalRunUnstakes.query pool blockTimeStamp) = .error err) :
    GetTotalRunUnstakes db pool blockTimeStamp = ((0, some err), none) := by
  unfold GetTotalRunUnstakes
  rw [hdb]

theorem GetTotalRunUnstakes_scanned (db : SumQuery → SumRows) (pool : String) (blockTimeStamp : Int)
    (v : Int) (hv : IsInt64 v)
    (hdb : db (GetTotalRunUnstakes.query pool blockTimeStamp) = .rows (some (some v))) :
    GetTotalRunUnstakes db pool blockTimeStamp = ((v, none), some v) := by
  unfold GetTotalRunUnstakes
  rw [hdb]
  simp only [scanInto, hv, if_true]

theorem GetTotalRuneSwapIn_query_fails (db : SumQuery → SumRows) (pool : String) (blockTimeStamp : Int)
    (err : String) (hdb : db (GetTotalRuneSwapIn.query pool blockTimeStamp) = .error err) :
    GetTotalRuneSwapIn db pool blockTimeStamp = ((0, some err), none) := by
  unfold GetTotalRuneSwapIn
  rw [hdb]

theorem GetTotalRuneSwapIn_scanned (db : SumQuery → SumRows) (pool : String) (blockTimeStamp : Int)
    (v : Int) (hv : IsInt64 v)
    (hdb : db (GetTotalRuneSwapIn.query pool blockTimeStamp) = .rows (some (some v))) :
    GetTotalRuneSwapIn db pool blockTimeStamp = ((v, none), some v) := by
  unfold GetTotalRuneSwapIn
  rw [hdb]
  simp only [scanInto, hv, if_true]

theorem GetTotalRuneSwapOut_query_fails (db : SumQuery → SumRows) (pool : String) (blockTimeStamp : Int)
    (err : String) (hdb : db (GetTotalRuneSwapOut.query pool blockTimeStamp) = .error err) :
    GetTotalRuneSwapOut db pool blockTimeStamp = ((0, some err), none) := by
  unfold GetTotalRuneSwapOut
  rw [hdb]

theorem GetTotalRuneSwapOut_scanned (db : SumQuery → SumRows) (pool : String) (blockTimeStamp : Int)
    (v : Int) (hv : IsInt64 v)
    (hdb : db (GetTotalRuneSwapOut.query pool blockTimeStamp) = .rows (some (some v))) :
    GetTotalRuneSwapOut db pool blockTimeStamp = ((v, none), some v) := by
  unfold GetTotalRuneSwapOut
  rw [hdb]
  simp only [scanInto, hv, if_true]

theorem GetFees_query_fails (db : SumQuery → SumRows) (pool : String) (blockTimeStamp : Int)
    (err : String) (hdb : db (GetFees.query pool blockTimeStamp) = .error err) :
    GetFees db pool blockTimeStamp = ((0, some err), none) := by
  unfold GetFees
  rw [hdb]

theorem GetFees_scanned (db : SumQuery → SumRows) (pool : String) (blockTimeStamp : Int)
    (v : Int) (hv : IsInt64 v)
    (hdb : db (GetFees.query pool blockTimeStamp) = .rows (some (some v))) :
    GetFees db pool blockTimeStamp = ((v, none), some v) := by
  unfold GetFees
  rw [hdb]
  simp only [scanInto, hv, if_true]

theorem GetPoolDeductRefunds_query_fails (db : SumQuery → SumRows) (pool : String) (blockTimeStamp : Int)
    (err : String) (hdb : db (GetPoolDeductRefunds.query pool blockTimeStamp) = .error err) :
    GetPoolDeductRefunds db pool blockTimeStamp = ((0, some err), none) := by
  unfold GetPoolDeductRefunds
  rw [hdb]

theorem GetPoolDeductRefunds_scanned (db : SumQuery → SumRows) (pool : String) (blockTimeStamp : Int)
    (v : Int) (hv : IsInt64 v)
    (hdb : db (GetPoolDeductRefunds.query pool blockTimeStamp) = .rows (some (some v))) :
    GetPoolDeductRefunds db pool blockTimeStamp = ((v, none), some v) := by
  unfold GetPoolDeductRefunds
  rw [hdb]
  simp only [scanInto, hv, if_true]

theorem GetRuneFeesSwaps_query_fails (db : SumQuery → SumRows) (pool : String) (blockTimeStamp : Int)
    (err : String) (hdb : db (GetRuneFeesSwaps.query pool blockTimeStamp) = .error err) :
    GetRuneFeesSwaps db pool blockTimeStamp = ((0, some err), none) := by
  unfold GetRuneFeesSwaps
  rw [hdb]

theorem GetRuneFeesSwaps_scanned (db : SumQuery → SumRows) (pool : String) (blockTimeStamp : Int)
    (v : Int) (hv : IsInt64 v)
    (hdb : db (GetRuneFeesSwaps.query pool blockTimeStamp) = .rows (some (some v))) :
    GetRuneFeesSwaps db pool blockTimeStamp = ((v, none), some v) := by
  unfold GetRuneFeesSwaps
  rw [hdb]
  simp only [scanInto, hv, if_true]

theorem GetPoolDeductSwaps_query_fails (db : SumQuery → SumRows) (pool : String) (blockTimeStamp : Int)
    (err : String) (hdb : db (GetPoolDeductSwaps.query pool blockTimeStamp) = .error err) :
    GetPoolDeductSwaps db pool blockTimeStamp = ((0, some err), none) := by
  unfold GetPoolDeductSwaps
  rw [hdb]

theorem GetPoolDeductSwaps_scanned (db : SumQuery → SumRows) (pool : String) (blockTimeStamp : Int)
    (v : Int) (hv : IsInt64 v)
    (hdb : db (GetPoolDeductSwaps.query pool blockTimeStamp) = .rows (some (some v))) :
    GetPoolDeductSwaps db pool blockTimeStamp = ((v, none), some v) := by
  unfold GetPoolDeductSwaps
  rw [hdb]
  simp only [scanInto, hv, if_true]

theorem GetRuneFeeUnstakes_query_fails (db : SumQuery → SumRows) (pool : String) (blockTimeStamp : Int)
    (err : String) (hdb : db (GetRuneFeeUnstakes.query pool blockTimeStamp) = .error err) :
    GetRuneFeeUnstakes db pool blockTimeStamp = ((0, some err), none) := by
  unfold GetRuneFeeUnstakes
  rw [hdb]

theorem GetRuneFeeUnstakes_scanned (db : SumQuery → SumRows) (pool : String) (blockTimeStamp : Int)
    (v : Int) (hv : IsInt64 v)
    (hdb : db (GetRuneFeeUnstakes.query pool blockTimeStamp) = .rows (some (some v))) :
    GetRuneFeeUnstakes db pool blockTimeStamp = ((v, none), some v) := by
  unfold GetRuneFeeUnstakes
  rw [hdb]
  simp only [scanInto, hv, if_true]

theorem GetPoolDeductUnstakes_query_fails (db : SumQuery → SumRows) (pool : String) (blockTimeStamp : Int)
    (err : String) (hdb : db (GetPoolDeductUnstakes.query pool blockTimeStamp) = .error err) :
    GetPoolDeductUnstakes db pool blockTimeStamp = ((0, some err), none) := by
  unfold GetPoolDeductUnstakes
  rw [hdb]

theorem GetPoolDeductUnstakes_scanned (db : SumQuery → SumRows) (pool : String) (blockTimeStamp : Int)
    (v : Int) (hv : IsInt64 v)
    (hdb : db (GetPoolDeductUnstakes.query pool blockTimeStamp) = .rows (some (some v))) :
    GetPoolDeductUnstakes db pool blockTimeStamp = ((0, none), some v) := by
  unfold GetPoolDeductUnstakes
  rw [hdb]
  simp only [scanInto, hv, if_true]
  rfl

theorem GetAdds_query_fails (db : SumQuery → SumRows) (pool : String) (blockTimeStamp : Int)
    (err : String) (hdb : db (GetAdds.query pool blockTimeStamp) = .error err) :
    GetAdds db pool blockTimeStamp = ((0, some err), none) := by
  unfold GetAdds
  rw [hdb]

theorem GetAdds_scanned (db : SumQuery → SumRows) (pool : String) (blockTimeStamp : Int)
    (v : Int) (hv : IsInt64 v)
    (hdb : db (GetAdds.query pool blockTimeStamp) = .rows (some (some v))) :
    GetAdds db pool blockTimeStamp = ((0, none), some v) := by
  unfold GetAdds
  rw [hdb]
  simp only [scanInto, hv, if_true]
  rfl

theorem GetRewards_query_fails (db : SumQuery → SumRows) (pool : String) (blockTimeStamp : Int)
    (err : String) (hdb : db (GetRewards.query pool blockTimeStamp) = .error err) :
    GetRewards db pool blockTimeStamp = ((0, some err), none) := by
  unfold GetRewards
  rw [hdb]

theorem GetRewards_scanned (db : SumQuery → SumRows) (pool : String) (blockTimeStamp : Int)
    (v : Int) (hv : IsInt64 v)
    (hdb : db (GetRewards.query pool blockTimeStamp) = .rows (some (some v))) :
    GetRewards db pool blockTimeStamp = ((v, none), some v) := by
  unfold GetRewards
  rw [hdb]
  simp only [scanInto, hv, if_true]

theorem GetErrata_query_fails (db : SumQuery → SumRows) (pool : String) (blockTimeStamp : Int)
    (err : String) (hdb : db (GetErrata.query pool blockTimeStamp) = .error err) :
    GetErrata db pool blockTimeStamp = ((0, some err), none) := by
  unfold GetErrata
  rw [hdb]

theorem GetErrata_scanned (db : SumQuery → SumRows) (pool : String) (blockTimeStamp : Int)
    (v : Int) (hv : IsInt64 v)
    (hdb : db (GetErrata.query pool blockTimeStamp) = .rows (some (some v))) :
    GetErrata db pool blockTimeStamp = ((v, none), some v) := by
  unfold GetErrata
  rw [hdb]
  simp only [scanInto, hv, if_true]

theorem GetGas_query_fails (db : SumQuery → SumRows) (pool : String) (blockTimeStamp : Int)
    (err : String) (hdb : db (GetGas.query pool blockTimeStamp) = .error err) :
    GetGas db pool blockTimeStamp = ((0, some err), none) := by
  unfold GetGas
  rw [hdb]

theorem GetGas_scanned (db : SumQuery → SumRows) (pool : String) (blockTimeStamp : Int)
    (v : Int) (hv : IsInt64 v)
    (hdb : db (GetGas.query pool blockTimeStamp) = .rows (some (some v))) :
    GetGas db pool blockTimeStamp = ((v, none), some v) := by
  unfold GetGas
  rw [hdb]
  simp only [scanInto, hv, if_true]

theorem GetAdds_value (db : SumQuery → SumRows) (pool : String) (blockTimeStamp : Int) :
    (GetAdds db pool blockTimeStamp).1.1 = 0 := by
  unfold GetAdds
  rcases db (GetAdds.query pool blockTimeStamp) with err | next
  · rfl
  · rcases next with _ | (_ | v)
    · rfl
    · rfl
    · by_cases hv : IsInt64 v <;> simp only [scanInto, hv, if_true, if_false] <;> rfl

theorem GetPoolDeductUnstakes_value (db : SumQuery → SumRows) (pool : String)
    (blockTimeStamp : Int) : (GetPoolDeductUnstakes db pool blockTimeStamp).1.1 = 0 := by
  unfold GetPoolDeductUnstakes
  rcases db (GetPoolDeductUnstakes.query pool blockTimeStamp) with err | next
  · rfl
  · rcases next with _ | (_ | v)
    · rfl
    · rfl
    · by_cases hv : IsInt64 v <;> simp only [scanInto, hv, if_true, if_false] <;> rfl

set_option maxRecDepth 8000 in
/-- C12, evaluated where the code departs from it. The query of `GetAdds`
yields one row with the sum 5: `GetAdds` prints 5 and returns 0 with a nil
error. The query of `GetPoolDeductUnstakes` yields one row with the sum 11:
it prints 11 and returns 0 with a nil error. `GetRewards`, on a row with the
sum 7, returns 7 as the other twelve functions do. -/
theorem GetAdds_GetPoolDeductUnstakes_at_sample :
    Sample.sums (GetAdds.query "BNB.BNB" 1598918400) = .rows (some (some 5)) ∧
    GetAdds Sample.sums "BNB.BNB" 1598918400 = ((0, none), some 5) ∧
    Sample.sums (GetPoolDeductUnstakes.query "BNB.BNB" 1598918400) = .rows (some (some 11)) ∧
    GetPoolDeductUnstakes Sample.sums "BNB.BNB" 1598918400 = ((0, none), some 11) ∧
    Sample.sums (GetRewards.query "BNB.BNB" 1598918400) = .rows (some (some 7)) ∧
    GetRewards Sample.sums "BNB.BNB" 1598918400 = ((7, none), some 7) := by
  refine ⟨by decide, by decide, by decide, by decide, by decide, by decide⟩

end Midgard
